import Mathlib

/-!
Shallow embedding of the beam-planning program (`src/main.py`) and proofs
about the visibility/interference constraint engine and the greedy beam
scheduler.

Modelling conventions:
* Python floats are modelled by an arbitrary `LinearOrderedCommRing α`
  (instantiated at `ℝ` for the actual `acos`-based geometry and at `ℤ`
  for concrete evaluations).  The scheduler and visibility-matrix builder
  only consume the geometry through the function `calculate_angle_degrees`,
  so they are parameterised by an arbitrary angle function
  `angle : Vector3 α → Vector3 α → Vector3 α → α`.
* Python dicts are modelled by insertion-ordered association lists.
  Scenario object ids, which the source stores as decimal strings and
  converts with `int(...)`/`str(...)` at each use, are modelled by their
  numeric values (`Nat`); the text parser keeps the raw token form.
* Python exceptions (out-of-range index, division by zero) are modelled
  with `Option`: `none` is a raised exception.
-/

set_option maxRecDepth 8192

namespace BeamPlanning

/-- A type for 3D points, units are in km (`Vector3` in the source). -/
structure Vector3 (α : Type) where
  x : α
  y : α
  z : α
deriving DecidableEq, Repr

variable {α : Type} [LinearOrderedCommRing α]

/-- Center of the earth (`origin = Vector3(0,0,0)`). -/
def origin : Vector3 α := ⟨0, 0, 0⟩

/-- Beams per satellite (`beams_per_satellite = 32`). -/
def beams_per_satellite : Nat := 32

/-- Colors per satellite (`colors_per_satellite = 4`). -/
def colors_per_satellite : Nat := 4

/-- Self-interference angle, degrees (`self_interference_max = 10.0`). -/
def self_interference_max : α := 10

/-- Non-Starlink interference angle, degrees
(`non_starlink_interference_max = 20.0`). -/
def non_starlink_interference_max : α := 20

/-- Max user to Starlink beam angle, degrees from vertical
(`max_user_visible_angle = 45.0`). -/
def max_user_visible_angle : α := 45

/-- The three states a visibility-matrix cell can take (`class BeamState`).
Constructor names keep the source's spelling. -/
inductive BeamState where
  | AVAILIBLE
  | IN_USE
  | UNAVAILIBLE
deriving DecidableEq, Repr

/-- A parsed scenario with numeric ids: each of the three Python dicts
`scenario['sats'] / ['users'] / ['interferers']` becomes an
insertion-ordered association list from the id's numeric value to its
position. -/
structure Scenario (α : Type) where
  sats : List (Nat × Vector3 α)
  users : List (Nat × Vector3 α)
  interferers : List (Nat × Vector3 α)
deriving DecidableEq

/-- The visibility matrix: a list of per-user rows of `BeamState`s. -/
abbrev Mat := List (List BeamState)

/-- An assignment record `[user_id, color_i]` appended to a satellite's
list in `solution`. -/
abbrev Record := Nat × Nat

/-- The `solution` dict: satellite id mapped to its ordered list of
assignment records, as an insertion-ordered association list. -/
abbrev Solution := List (Nat × List Record)

/-- Reading `v[user_i][col]`.  Out-of-range reads (which would raise in
Python but never occur on the paths the scheduler takes) default to
`UNAVAILIBLE`. -/
def getCell (v : Mat) (user_i col : Nat) : BeamState :=
  (v.getD user_i []).getD col BeamState.UNAVAILIBLE

/-- The in-place write `v[user_i][col] = st`.  `List.set` leaves the
matrix unchanged out of range; the scheduler only writes in range. -/
def writeCell (v : Mat) (user_i col : Nat) (st : BeamState) : Mat :=
  v.set user_i ((v.getD user_i []).set col st)

/-- The write `v[user_i][col] = st` with Python's IndexError made
explicit: `none` when either index is out of range.  Used for the
matrix-construction writes, whose indices come from scenario ids. -/
def setCell (v : Mat) (user_i col : Nat) (st : BeamState) : Option Mat :=
  match v[user_i]? with
  | none => none
  | some row => if col < row.length then some (v.set user_i (row.set col st)) else none

/-- Dict lookup `d[k]` for the scenario position tables; the scheduler
only looks up keys that are present, a missing key (Python KeyError)
defaults to the origin here. -/
def lookupPos (l : List (Nat × Vector3 α)) (k : Nat) : Vector3 α :=
  (l.lookup k).getD ⟨0, 0, 0⟩

/-- `set_user_beam(v, user_i, color_i, sat_id, state)`:
`v[user_i][(sat_id - 1) * colors_per_satellite + color_i] = state`. -/
def set_user_beam (v : Mat) (user_i color_i sat_id : Nat) (state : BeamState) : Mat :=
  writeCell v user_i ((sat_id - 1) * colors_per_satellite + color_i) state

/-- The inner loop `for i in range(sat_i, sat_i + colors_per_satellite)`
of the saturated branch of `update_visibility`: any cell of this user
still `AVAILIBLE` in the satellite's column block is set `UNAVAILIBLE`.
`cols` is instantiated with `List.range' sat_i colors_per_satellite`. -/
def mark_full_row (user_i : Nat) : List Nat → Mat → Mat
  | [], v => v
  | i :: rest, v =>
    mark_full_row user_i rest
      (if getCell v user_i i = BeamState.AVAILIBLE
       then writeCell v user_i i BeamState.UNAVAILIBLE else v)

/-- The loop `for user_i in range(num_users)` of `update_visibility`,
with `idxs` instantiated by `List.range num_users`.  In the saturated
case every still-`AVAILIBLE` cell of the satellite's whole column block
is closed; otherwise a still-`AVAILIBLE` cell of the chosen
`(satellite, color)` column is closed when the angle at the satellite
between the just-assigned user and this user is below
`self_interference_max`. -/
def update_loop (angle : Vector3 α → Vector3 α → Vector3 α → α)
    (scenario : Scenario α) (target_user_pos : Vector3 α)
    (mark_sat_full : Bool) (sat_id sat_i sat_i_color_i : Nat) :
    List Nat → Mat → Mat
  | [], v => v
  | user_i :: rest, v =>
    if mark_sat_full then
      update_loop angle scenario target_user_pos mark_sat_full sat_id sat_i sat_i_color_i
        rest (mark_full_row user_i (List.range' sat_i colors_per_satellite) v)
    else if getCell v user_i sat_i_color_i ≠ BeamState.AVAILIBLE then
      update_loop angle scenario target_user_pos mark_sat_full sat_id sat_i sat_i_color_i
        rest v
    else
      let user_pos := lookupPos scenario.users (user_i + 1)
      let sat_pos := lookupPos scenario.sats sat_id
      update_loop angle scenario target_user_pos mark_sat_full sat_id sat_i sat_i_color_i
        rest
        (if angle sat_pos target_user_pos user_pos < self_interference_max
         then writeCell v user_i sat_i_color_i BeamState.UNAVAILIBLE else v)

/-- `update_visibility(v, scenario, target_user_i, sat_id, color_i, beam_i)`:
sets the assigned cell `IN_USE` and then propagates the constraints
(saturation when `beam_i == beams_per_satellite - 1`, otherwise the
self-interference check) over all users. -/
def update_visibility (angle : Vector3 α → Vector3 α → Vector3 α → α)
    (v : Mat) (scenario : Scenario α)
    (target_user_i sat_id color_i beam_i : Nat) : Mat :=
  let v1 := set_user_beam v target_user_i color_i sat_id BeamState.IN_USE
  let target_user_pos := lookupPos scenario.users (target_user_i + 1)
  let mark_sat_full := beam_i == beams_per_satellite - 1
  let sat_i := (sat_id - 1) * colors_per_satellite
  let sat_i_color_i := sat_i + color_i
  update_loop angle scenario target_user_pos mark_sat_full sat_id sat_i sat_i_color_i
    (List.range v1.length) v1

/-- The body of the `(user, satellite)` double loop of
`generate_visibility_matrix`: visibility gate, interferer gate, then the
`for i in range(colors_per_satellite)` marking loop (here the body of
that marking loop, over the explicit list of color offsets). -/
def markColors (user_i sat_base : Nat) : List Nat → Mat → Option Mat
  | [], v => some v
  | i :: rest, v =>
    match setCell v user_i (sat_base * colors_per_satellite + i) BeamState.AVAILIBLE with
    | none => none
    | some v' => markColors user_i sat_base rest v'

/-- One `(user, satellite)` pair of `generate_visibility_matrix`:
skip if the elevation angle is not strictly above
`180 - max_user_visible_angle`, skip if some interferer's angle is
strictly below `non_starlink_interference_max`, otherwise mark all
`colors_per_satellite` cells of the pair `AVAILIBLE` (writing at the
indices `int(user_id) - 1` and `(int(sat_id) - 1) * colors_per_satellite + i`). -/
def markPair (angle : Vector3 α → Vector3 α → Vector3 α → α)
    (interferers : List (Nat × Vector3 α))
    (su ss : Nat × Vector3 α) (v : Mat) : Option Mat :=
  let user_pos := su.2
  let sat_pos := ss.2
  if angle user_pos origin sat_pos ≤ 180 - max_user_visible_angle then some v
  else if interferers.any
      (fun ip => angle user_pos ip.2 sat_pos < non_starlink_interference_max) then some v
  else markColors (su.1 - 1) (ss.1 - 1) (List.range colors_per_satellite) v

/-- Inner loop `for sat_id in sats` of `generate_visibility_matrix`. -/
def mark_sats (angle : Vector3 α → Vector3 α → Vector3 α → α)
    (interferers : List (Nat × Vector3 α)) (su : Nat × Vector3 α) :
    List (Nat × Vector3 α) → Mat → Option Mat
  | [], v => some v
  | ss :: rest, v =>
    match markPair angle interferers su ss v with
    | none => none
    | some v' => mark_sats angle interferers su rest v'

/-- Outer loop `for user_id in users` of `generate_visibility_matrix`. -/
def mark_users (angle : Vector3 α → Vector3 α → Vector3 α → α)
    (interferers sats : List (Nat × Vector3 α)) :
    List (Nat × Vector3 α) → Mat → Option Mat
  | [], v => some v
  | su :: rest, v =>
    match mark_sats angle interferers su sats v with
    | none => none
    | some v' => mark_users angle interferers sats rest v'

/-- `generate_visibility_matrix(scenario)`: the
`(# users) × (# sats * colors_per_satellite)` matrix, initialised all
`UNAVAILIBLE`, with every visible interference-free pair marked
`AVAILIBLE`.  `none` models the IndexError raised when a scenario id is
not a 1-based contiguous index into the matrix. -/
def generate_visibility_matrix (angle : Vector3 α → Vector3 α → Vector3 α → α)
    (scenario : Scenario α) : Option Mat :=
  let sat_dim := scenario.sats.length * colors_per_satellite
  let user_dim := scenario.users.length
  let v : Mat := List.replicate user_dim (List.replicate sat_dim BeamState.UNAVAILIBLE)
  mark_users angle scenario.interferers scenario.sats scenario.users v

/-- The inner column scan
`for sat_beam_i in range(num_sat_beam): if v[user_i][sat_beam_i] == AVAILIBLE: ...; break`:
index of the first `AVAILIBLE` cell of a row, if any. -/
def find_avail : List BeamState → Option Nat
  | [] => none
  | st :: rest =>
    if st = BeamState.AVAILIBLE then some 0 else (find_avail rest).map (· + 1)

/-- `solution[k]`, defaulting to the empty record list. -/
def lookupList (sol : Solution) (k : Nat) : List Record :=
  (sol.lookup k).getD []

/-- `if sat_id not in solution: solution[sat_id] = []` followed by
`solution[sat_id].append(new_beam)` on the Python dict. -/
def dictAppend (sol : Solution) (k : Nat) (r : Record) : Solution :=
  if (sol.lookup k).isSome then
    sol.map (fun e => if e.1 = k then (e.1, e.2 ++ [r]) else e)
  else sol ++ [(k, [r])]

/-- One iteration of the greedy solver's outer loop for `user_i`: find
the first `AVAILIBLE` column, decode it into `(sat_id, color_i)`, append
the assignment record and run `update_visibility`; a user with no
`AVAILIBLE` cell is skipped. -/
def assign_user (angle : Vector3 α → Vector3 α → Vector3 α → α)
    (scenario : Scenario α) (sol : Solution) (v : Mat) (user_i : Nat) :
    Solution × Mat :=
  match find_avail (v.getD user_i []) with
  | none => (sol, v)
  | some sat_beam_i =>
    let sat_id := sat_beam_i / colors_per_satellite + 1
    let color_i := sat_beam_i % colors_per_satellite
    let sol' := dictAppend sol sat_id (user_i + 1, color_i)
    let current_beam_i := (lookupList sol' sat_id).length - 1
    (sol', update_visibility angle v scenario user_i sat_id color_i current_beam_i)

/-- The greedy solver loop `for user_i in range(num_users)`, with `idxs`
instantiated by `List.range num_users`. -/
def greedy (angle : Vector3 α → Vector3 α → Vector3 α → α)
    (scenario : Scenario α) : List Nat → Solution → Mat → Solution × Mat
  | [], sol, v => (sol, v)
  | user_i :: rest, sol, v =>
    let p := assign_user angle scenario sol v user_i
    greedy angle scenario rest p.1 p.2

/-- The whole greedy pass of `main` over a visibility matrix. -/
def main_loop (angle : Vector3 α → Vector3 α → Vector3 α → α)
    (scenario : Scenario α) (v : Mat) : Solution × Mat :=
  greedy angle scenario (List.range v.length) [] v

/-- The scheduler part of `main`: `num_sat_beam = len(v[0])` raises an
IndexError on an empty matrix (zero users) before the greedy loop can
run; otherwise the greedy loop runs to completion. -/
def run_scheduler (angle : Vector3 α → Vector3 α → Vector3 α → α)
    (scenario : Scenario α) (v : Mat) : Option Solution :=
  match v[0]? with
  | none => none
  | some _ => some (main_loop angle scenario v).1

/-- The core pipeline of `main`: build the visibility matrix, then run
the greedy scheduler (formatting of the result is outside the core). -/
def run (angle : Vector3 α → Vector3 α → Vector3 α → α)
    (scenario : Scenario α) : Option Solution :=
  match generate_visibility_matrix angle scenario with
  | none => none
  | some v => run_scheduler angle scenario v

/-! ### The scenario text parser (`read_object` / `read_scenario`)

Lines are modelled as `List Char` (a Python `str` is its character
sequence) and number tokens are parsed by an abstract
`pf : Tok → Option α` modelling Python's `float(...)`
(`none` = `ValueError`). -/

/-- A whitespace-separated token of a line. -/
abbrev Tok := List Char

/-- Helper for `splitWs`: accumulates the current (reversed) token. -/
def splitWsAux : List Char → Tok → List Tok
  | [], acc => if acc = [] then [] else [acc.reverse]
  | c :: rest, acc =>
    if c.isWhitespace then
      if acc = [] then splitWsAux rest [] else acc.reverse :: splitWsAux rest []
    else splitWsAux rest (c :: acc)

/-- Python's `line.split()`: split on runs of whitespace, no empty
tokens. -/
def splitWs (line : List Char) : List Tok := splitWsAux line []

/-- Bool test that `pre` is a prefix of `l`. -/
def leadsWith : Tok → List Char → Bool
  | [], _ => true
  | _ :: _, [] => false
  | a :: as, b :: bs => a = b && leadsWith as bs

/-- Python's substring containment `sub in line`. -/
def containsTok (line : List Char) (sub : Tok) : Bool :=
  match line with
  | [] => sub.isEmpty
  | _ :: rest => leadsWith sub line || containsTok rest sub

/-- The keyword `"interferer"`. -/
def kwInterferer : Tok := "interferer".toList

/-- The keyword `"sat"`. -/
def kwSat : Tok := "sat".toList

/-- The keyword `"user"`. -/
def kwUser : Tok := "user".toList

/-- A scenario as built by the parser: the three dicts still keyed by
the raw id token (`parts[1]`). -/
structure ScenarioS (α : Type) where
  sats : List (Tok × Vector3 α)
  users : List (Tok × Vector3 α)
  interferers : List (Tok × Vector3 α)
deriving DecidableEq

/-- `dest[ident] = value` on a Python dict: replace in place if the key
exists, else append (insertion order preserved). -/
def dictInsert {β : Type} (d : List (Tok × β)) (k : Tok) (val : β) : List (Tok × β) :=
  if (d.lookup k).isSome then d.map (fun e => if e.1 = k then (e.1, val) else e)
  else d ++ [(k, val)]

/-- `read_object(object_type, line, dest)`: a line must split into
exactly `[object_type, id, x, y, z]` with three parseable coordinates;
on success the position is stored under the id token, otherwise the
result is `none` (Python returns `False`). -/
def read_object {α : Type} (pf : Tok → Option α) (object_type : Tok) (line : List Char)
    (dest : List (Tok × Vector3 α)) : Option (List (Tok × Vector3 α)) :=
  match splitWs line with
  | [t, ident, xs, ys, zs] =>
    if t ≠ object_type then none
    else
      match pf xs, pf ys, pf zs with
      | some x, some y, some z => some (dictInsert dest ident ⟨x, y, z⟩)
      | _, _, _ => none
  | _ => none

/-- The line loop of `read_scenario`: a line containing `#` anywhere is
a comment, a whitespace-only line is skipped, and otherwise the line is
dispatched to `read_object` by substring containment, testing
`"interferer"`, then `"sat"`, then `"user"`; an unmatched or rejected
line aborts the whole load (`none`). -/
def read_lines {α : Type} (pf : Tok → Option α) :
    List (List Char) → ScenarioS α → Option (ScenarioS α)
  | [], sc => some sc
  | line :: rest, sc =>
    if line.contains '#' then read_lines pf rest sc
    else if line.all Char.isWhitespace then read_lines pf rest sc
    else if containsTok line kwInterferer then
      match read_object pf kwInterferer line sc.interferers with
      | none => none
      | some d => read_lines pf rest { sc with interferers := d }
    else if containsTok line kwSat then
      match read_object pf kwSat line sc.sats with
      | none => none
      | some d => read_lines pf rest { sc with sats := d }
    else if containsTok line kwUser then
      match read_object pf kwUser line sc.users with
      | none => none
      | some d => read_lines pf rest { sc with users := d }
    else none

/-- `read_scenario` over the list of lines of the scenario file. -/
def read_scenario {α : Type} (pf : Tok → Option α) (lines : List (List Char)) :
    Option (ScenarioS α) :=
  read_lines pf lines ⟨[], [], []⟩

/-- Python's `int(...)` on the id tokens the parser produced, restricted
to the plain decimal numerals the scenario format uses
(`none` = `ValueError`). -/
def tokToNat? (t : Tok) : Option Nat :=
  if t ≠ [] ∧ t.all Char.isDigit then
    some (t.foldl (fun n c => n * 10 + (c.toNat - 48)) 0)
  else none

/-- Key conversion for one of the parsed dicts. -/
def convIds {α : Type} : List (Tok × Vector3 α) → Option (List (Nat × Vector3 α))
  | [] => some []
  | e :: rest =>
    match tokToNat? e.1, convIds rest with
    | some n, some r => some ((n, e.2) :: r)
    | _, _ => none

/-- Bridge from the parsed scenario to the core model: the `int(id)`
conversions that `generate_visibility_matrix` and `update_visibility`
apply to every string id at its use site, applied up front. -/
def toCore {α : Type} (sc : ScenarioS α) : Option (Scenario α) :=
  match convIds sc.sats, convIds sc.users, convIds sc.interferers with
  | some s, some u, some i => some ⟨s, u, i⟩
  | _, _, _ => none

/-- A comment line: `"#" in line`. -/
def isCommentLine (line : List Char) : Bool := line.contains '#'

/-- A blank line: `line.strip() == ""`. -/
def isBlankLine (line : List Char) : Bool := line.all Char.isWhitespace

/-- A well-formed object line in the sense of the specification: five
whitespace-separated tokens, a recognised leading keyword, and three
parseable coordinates. -/
def wellFormedLine {α : Type} (pf : Tok → Option α) (line : List Char) : Bool :=
  match splitWs line with
  | [kw, _ident, xs, ys, zs] =>
    (kw == kwSat || kw == kwUser || kw == kwInterferer) &&
      (pf xs).isSome && (pf ys).isSome && (pf zs).isSome
  | _ => false

/-- The keyword the containment-based `elif` chain of `read_scenario`
routes a line to. -/
def routeOf (line : List Char) : Option Tok :=
  if containsTok line kwInterferer then some kwInterferer
  else if containsTok line kwSat then some kwSat
  else if containsTok line kwUser then some kwUser
  else none

/-- A line the parser is guaranteed to accept: a comment, a blank line,
or a well-formed object line that the containment-based routing
dispatches to its own leading keyword. -/
def goodLine {α : Type} (pf : Tok → Option α) (line : List Char) : Bool :=
  isCommentLine line || isBlankLine line ||
    (match splitWs line with
     | [kw, _ident, xs, ys, zs] =>
       (routeOf line == some kw) && (pf xs).isSome && (pf ys).isSome && (pf zs).isSome
     | _ => false)

/-! ### The geometry engine over `ℝ` (`calculate_angle_degrees`) -/

/-- `calculate_angle_degrees(vertex, point_a, point_b)` over exact real
arithmetic: normalised direction vectors, clamped dot product, arc
cosine converted to degrees.  `none` models the `ZeroDivisionError`
Python raises when a direction vector has zero magnitude. -/
noncomputable def calculate_angle_degrees (vertex point_a point_b : Vector3 ℝ) :
    Option ℝ :=
  let va : Vector3 ℝ := ⟨point_a.x - vertex.x, point_a.y - vertex.y, point_a.z - vertex.z⟩
  let vb : Vector3 ℝ := ⟨point_b.x - vertex.x, point_b.y - vertex.y, point_b.z - vertex.z⟩
  let va_mag := Real.sqrt (va.x ^ 2 + va.y ^ 2 + va.z ^ 2)
  let vb_mag := Real.sqrt (vb.x ^ 2 + vb.y ^ 2 + vb.z ^ 2)
  if va_mag = 0 ∨ vb_mag = 0 then none
  else
    let va_norm : Vector3 ℝ := ⟨va.x / va_mag, va.y / va_mag, va.z / va_mag⟩
    let vb_norm : Vector3 ℝ := ⟨vb.x / vb_mag, vb.y / vb_mag, vb.z / vb_mag⟩
    let dot_product :=
      va_norm.x * vb_norm.x + va_norm.y * vb_norm.y + va_norm.z * vb_norm.z
    let dot_product_bound := min 1 (max (-1) dot_product)
    some (Real.arccos dot_product_bound * 180 / Real.pi)

/-! ### Derived predicates used by the theorems -/

/-- The visibility condition `generate_visibility_matrix` enforces for a
`(user, satellite)` pair: elevation angle strictly above
`180 - max_user_visible_angle`, and no interferer below
`non_starlink_interference_max`. -/
def pair_visible (angle : Vector3 α → Vector3 α → Vector3 α → α)
    (interferers : List (Nat × Vector3 α)) (user_pos sat_pos : Vector3 α) : Prop :=
  180 - max_user_visible_angle < angle user_pos origin sat_pos ∧
    ∀ ip ∈ interferers, ¬ (angle user_pos ip.2 sat_pos < non_starlink_interference_max)

instance pair_visible_dec (angle : Vector3 α → Vector3 α → Vector3 α → α)
    (interferers : List (Nat × Vector3 α)) (user_pos sat_pos : Vector3 α) :
    Decidable (pair_visible angle interferers user_pos sat_pos) := by
  unfold pair_visible
  exact instDecidableAnd

/-- The canonical well-formed object table: ids are exactly the decimal
values `1..n`, in order, with `pos k` the position of id `k + 1`.  This
is the shape `read_scenario` produces for the scenario files the format
documents (contiguous 1-based ids). -/
def mkObjs (pos : Nat → Vector3 α) (n : Nat) : List (Nat × Vector3 α) :=
  (List.range n).map (fun k => (k + 1, pos k))

/-- Every user holds at most one beam: two assignment records with the
same user id are the same record of the same satellite. -/
def one_beam_per_user (sol : Solution) : Prop :=
  ∀ (s i : Nat) (ri : Record) (s' i' : Nat) (ri' : Record),
    (lookupList sol s)[i]? = some ri → (lookupList sol s')[i']? = some ri' →
    ri.1 = ri'.1 → s = s' ∧ i = i'

/-- One-way cell evolution from `v` to `v'`: any cell that changed was
`Available` before the change and is no longer `Available` after it
(`Available → InUse` or `Available → Unavailable`). -/
def cell_mono (v v' : Mat) : Prop :=
  ∀ u c, getCell v' u c ≠ getCell v u c →
    getCell v u c = BeamState.AVAILIBLE ∧ getCell v' u c ≠ BeamState.AVAILIBLE

/-- Any two records of the same satellite and the same color, in
assignment order, point at users whose angle as seen from the satellite
is at least `self_interference_max`. -/
def sol_pairs_ok (angle : Vector3 α → Vector3 α → Vector3 α → α)
    (scenario : Scenario α) (sol : Solution) : Prop :=
  ∀ (s i j : Nat) (ri rj : Record), i < j →
    (lookupList sol s)[i]? = some ri → (lookupList sol s)[j]? = some rj → ri.2 = rj.2 →
    ¬ (angle (lookupPos scenario.sats s) (lookupPos scenario.users ri.1)
        (lookupPos scenario.users rj.1) < self_interference_max)

/-- Coupling between the solution and the matrix: a user whose cell for
an already-assigned `(satellite, color)` slot is still `AVAILIBLE` is at
least `self_interference_max` away from that slot's assigned user. -/
def sol_matrix_ok (angle : Vector3 α → Vector3 α → Vector3 α → α)
    (scenario : Scenario α) (sol : Solution) (v : Mat) : Prop :=
  ∀ (s : Nat) (r : Record), r ∈ lookupList sol s →
    ∀ u : Nat, getCell v u ((s - 1) * colors_per_satellite + r.2) = BeamState.AVAILIBLE →
    ¬ (angle (lookupPos scenario.sats s) (lookupPos scenario.users r.1)
        (lookupPos scenario.users (u + 1)) < self_interference_max)

/-- Capacity coupling: every satellite holds at most
`beams_per_satellite` records, and one that reached the cap has no
`AVAILIBLE` cell left in its column block for any user and any color. -/
def sat_budget_ok (sol : Solution) (v : Mat) : Prop :=
  ∀ s : Nat, (lookupList sol s).length ≤ beams_per_satellite ∧
    ((lookupList sol s).length = beams_per_satellite →
      ∀ (u c : Nat), c ∈ List.range' ((s - 1) * colors_per_satellite) colors_per_satellite →
        getCell v u c ≠ BeamState.AVAILIBLE)

/-! ### Concrete instantiations used by the witnesses -/

/-- A degenerate angle function (constant `180`) for concrete runs over
`ℤ`: every pair is visible and nothing self-interferes. -/
def wAngle : Vector3 ℤ → Vector3 ℤ → Vector3 ℤ → ℤ := fun _ _ _ => 180

/-- A concrete position. -/
def wP : Vector3 ℤ := ⟨0, 0, 0⟩

/-- A concrete two-user, one-satellite scenario. -/
def wScenario : Scenario ℤ := ⟨[(1, wP)], [(1, wP), (2, wP)], []⟩

/-- A concrete coordinate parser over `ℤ` for the witness files. -/
def wParse : Tok → Option ℤ := fun t => (tokToNat? t).map (fun n => (n : ℤ))

/-! ### Foundation lemmas about matrix reads and writes -/

theorem length_writeCell (v : Mat) (ui col : Nat) (st : BeamState) :
    (writeCell v ui col st).length = v.length := by
  simp [writeCell]

theorem getCell_oob_row (v : Mat) (u c : Nat) (h : v.length ≤ u) :
    getCell v u c = BeamState.UNAVAILIBLE := by
  simp [getCell, List.getD_eq_getElem?_getD, List.getElem?_eq_none h]

theorem getCell_oob_col (v : Mat) (u c : Nat) (h : (v.getD u []).length ≤ c) :
    getCell v u c = BeamState.UNAVAILIBLE := by
  simp [getCell, List.getD_eq_getElem?_getD] at *
  cases hv : v[u]? with
  | none => simp
  | some row => simp [hv] at h ⊢; simp [List.getElem?_eq_none h]

theorem getCell_in_range (v : Mat) (u c : Nat)
    (h : getCell v u c ≠ BeamState.UNAVAILIBLE) :
    u < v.length ∧ c < (v.getD u []).length := by
  constructor
  · by_contra hu
    exact h (getCell_oob_row v u c (Nat.le_of_not_lt hu))
  · by_contra hc
    exact h (getCell_oob_col v u c (Nat.le_of_not_lt hc))

theorem getD_set_row (v : Mat) (ui : Nat) (row' : List BeamState) (u : Nat) :
    (v.set ui row').getD u [] = if u = ui ∧ ui < v.length then row' else v.getD u [] := by
  simp only [List.getD_eq_getElem?_getD, List.getElem?_set]
  by_cases h : ui = u
  · subst h
    by_cases hl : ui < v.length
    · simp [hl]
    · simp [hl, List.getElem?_eq_none (Nat.le_of_not_lt hl)]
  · simp [h, Ne.symm h]

theorem getD_set_cell (row : List BeamState) (col : Nat) (st : BeamState) (c : Nat) :
    (row.set col st).getD c BeamState.UNAVAILIBLE =
      if c = col ∧ col < row.length then st
      else row.getD c BeamState.UNAVAILIBLE := by
  simp only [List.getD_eq_getElem?_getD, List.getElem?_set]
  by_cases hc : col = c
  · subst hc
    by_cases hl : col < row.length
    · simp [hl]
    · simp [hl, List.getElem?_eq_none (Nat.le_of_not_lt hl)]
  · simp [hc, Ne.symm hc]

theorem getCell_writeCell (v : Mat) (ui col : Nat) (st : BeamState) (u c : Nat) :
    getCell (writeCell v ui col st) u c =
      if u = ui ∧ c = col ∧ ui < v.length ∧ col < (v.getD ui []).length then st
      else getCell v u c := by
  show ((v.set ui ((v.getD ui []).set col st)).getD u []).getD c _ = _
  rw [getD_set_row]
  by_cases h : u = ui ∧ ui < v.length
  · rw [if_pos h, getD_set_cell]
    obtain ⟨hu, hl⟩ := h
    subst hu
    by_cases h2 : c = col ∧ col < (v.getD u []).length
    · rw [if_pos h2, if_pos ⟨rfl, h2.1, hl, h2.2⟩]
    · rw [if_neg h2, if_neg (fun hh => h2 ⟨hh.2.1, hh.2.2.2⟩)]
      rfl
  · rw [if_neg h, if_neg (fun hh => h ⟨hh.1, hh.2.2.1⟩)]
    rfl

/-! ### Monotone cell evolution -/

theorem cell_mono_refl (v : Mat) : cell_mono v v := fun _ _ hne => absurd rfl hne

theorem cell_mono_trans {v1 v2 v3 : Mat} (h12 : cell_mono v1 v2) (h23 : cell_mono v2 v3) :
    cell_mono v1 v3 := by
  intro u c hne
  by_cases h2 : getCell v2 u c = getCell v1 u c
  · have h := h23 u c (by rw [h2]; exact hne)
    rw [h2] at h
    exact h
  · obtain ⟨ha, hna⟩ := h12 u c h2
    refine ⟨ha, ?_⟩
    by_cases h3 : getCell v3 u c = getCell v2 u c
    · rw [h3]; exact hna
    · exact absurd (h23 u c h3).1 hna

theorem cell_mono_avail {v v' : Mat} (h : cell_mono v v') {u c : Nat}
    (h' : getCell v' u c = BeamState.AVAILIBLE) :
    getCell v u c = BeamState.AVAILIBLE := by
  by_cases he : getCell v' u c = getCell v u c
  · rw [← he]
    exact h'
  · exact absurd h' (h u c he).2

theorem cell_mono_writeCell (v : Mat) (ui i : Nat) (st : BeamState)
    (hst : st ≠ BeamState.AVAILIBLE) (hg : getCell v ui i = BeamState.AVAILIBLE) :
    cell_mono v (writeCell v ui i st) := by
  intro u c hne
  rw [getCell_writeCell] at hne
  by_cases hc : u = ui ∧ c = i ∧ ui < v.length ∧ i < (v.getD ui []).length
  · obtain ⟨h1, h2, h3, h4⟩ := hc
    subst h1; subst h2
    refine ⟨hg, ?_⟩
    rw [getCell_writeCell, if_pos ⟨rfl, rfl, h3, h4⟩]
    exact hst
  · rw [if_neg hc] at hne
    exact absurd rfl hne

theorem cell_mono_mark_step (v : Mat) (ui i : Nat) :
    cell_mono v
      (if getCell v ui i = BeamState.AVAILIBLE
       then writeCell v ui i BeamState.UNAVAILIBLE else v) := by
  by_cases hg : getCell v ui i = BeamState.AVAILIBLE
  · rw [if_pos hg]
    exact cell_mono_writeCell v ui i BeamState.UNAVAILIBLE (by simp) hg
  · rw [if_neg hg]
    exact cell_mono_refl v

theorem cell_mono_mark_full_row (ui : Nat) (cols : List Nat) (v : Mat) :
    cell_mono v (mark_full_row ui cols v) := by
  induction cols generalizing v with
  | nil => exact cell_mono_refl v
  | cons i rest ih =>
    exact cell_mono_trans (cell_mono_mark_step v ui i) (ih _)

theorem mark_full_row_not_avail (ui c : Nat) (cols : List Nat) :
    ∀ v : Mat, c ∈ cols →
      getCell (mark_full_row ui cols v) ui c ≠ BeamState.AVAILIBLE := by
  induction cols with
  | nil => intro v hc; cases hc
  | cons i rest ih =>
    intro v hc
    simp only [mark_full_row]
    rcases List.mem_cons.mp hc with h | h
    · subst h
      intro hav
      have hbefore := cell_mono_avail (cell_mono_mark_full_row ui rest _) hav
      by_cases hg : getCell v ui c = BeamState.AVAILIBLE
      · rw [if_pos hg] at hbefore
        obtain ⟨hr, hcl⟩ := getCell_in_range v ui c (by rw [hg]; simp)
        rw [getCell_writeCell, if_pos ⟨rfl, rfl, hr, hcl⟩] at hbefore
        cases hbefore
      · rw [if_neg hg] at hbefore
        exact hg hbefore
    · exact ih _ h

theorem length_mark_full_row (ui : Nat) (cols : List Nat) :
    ∀ v : Mat, (mark_full_row ui cols v).length = v.length := by
  induction cols with
  | nil => intro v; rfl
  | cons i rest ih =>
    intro v
    simp only [mark_full_row]
    rw [ih]
    by_cases hg : getCell v ui i = BeamState.AVAILIBLE
    · rw [if_pos hg, length_writeCell]
    · rw [if_neg hg]

/-! ### Effect of `update_loop` and `update_visibility` -/

theorem update_loop_cons_true (angle : Vector3 α → Vector3 α → Vector3 α → α)
    (scenario : Scenario α) (tpos : Vector3 α) (sat_id sat_i scc user_i : Nat)
    (rest : List Nat) (v : Mat) :
    update_loop angle scenario tpos true sat_id sat_i scc (user_i :: rest) v =
      update_loop angle scenario tpos true sat_id sat_i scc rest
        (mark_full_row user_i (List.range' sat_i colors_per_satellite) v) := by
  simp [update_loop]

theorem update_loop_cons_false (angle : Vector3 α → Vector3 α → Vector3 α → α)
    (scenario : Scenario α) (tpos : Vector3 α) (sat_id sat_i scc user_i : Nat)
    (rest : List Nat) (v : Mat) :
    update_loop angle scenario tpos false sat_id sat_i scc (user_i :: rest) v =
      if getCell v user_i scc ≠ BeamState.AVAILIBLE then
        update_loop angle scenario tpos false sat_id sat_i scc rest v
      else
        update_loop angle scenario tpos false sat_id sat_i scc rest
          (if angle (lookupPos scenario.sats sat_id) tpos
              (lookupPos scenario.users (user_i + 1)) < self_interference_max
           then writeCell v user_i scc BeamState.UNAVAILIBLE else v) := by
  simp [update_loop]

theorem cell_mono_update_loop (angle : Vector3 α → Vector3 α → Vector3 α → α)
    (scenario : Scenario α) (tpos : Vector3 α) (full : Bool) (sat_id sat_i scc : Nat) :
    ∀ (idxs : List Nat) (v : Mat),
      cell_mono v (update_loop angle scenario tpos full sat_id sat_i scc idxs v) := by
  intro idxs
  induction idxs with
  | nil => intro v; exact cell_mono_refl v
  | cons user_i rest ih =>
    intro v
    cases full with
    | true =>
      rw [update_loop_cons_true]
      exact cell_mono_trans (cell_mono_mark_full_row user_i _ v) (ih _)
    | false =>
      rw [update_loop_cons_false]
      by_cases hg : getCell v user_i scc ≠ BeamState.AVAILIBLE
      · rw [if_pos hg]
        exact ih v
      · rw [if_neg hg]
        push_neg at hg
        refine cell_mono_trans ?_ (ih _)
        by_cases ha : angle (lookupPos scenario.sats sat_id) tpos
            (lookupPos scenario.users (user_i + 1)) < self_interference_max
        · rw [if_pos ha]
          exact cell_mono_writeCell v user_i scc BeamState.UNAVAILIBLE (by simp) hg
        · rw [if_neg ha]
          exact cell_mono_refl v

theorem length_update_loop (angle : Vector3 α → Vector3 α → Vector3 α → α)
    (scenario : Scenario α) (tpos : Vector3 α) (full : Bool) (sat_id sat_i scc : Nat) :
    ∀ (idxs : List Nat) (v : Mat),
      (update_loop angle scenario tpos full sat_id sat_i scc idxs v).length = v.length := by
  intro idxs
  induction idxs with
  | nil => intro v; rfl
  | cons user_i rest ih =>
    intro v
    cases full with
    | true =>
      rw [update_loop_cons_true, ih, length_mark_full_row]
    | false =>
      rw [update_loop_cons_false]
      by_cases hg : getCell v user_i scc ≠ BeamState.AVAILIBLE
      · rw [if_pos hg, ih]
      · rw [if_neg hg, ih]
        by_cases ha : angle (lookupPos scenario.sats sat_id) tpos
            (lookupPos scenario.users (user_i + 1)) < self_interference_max
        · rw [if_pos ha, length_writeCell]
        · rw [if_neg ha]

theorem update_loop_full_not_avail (angle : Vector3 α → Vector3 α → Vector3 α → α)
    (scenario : Scenario α) (tpos : Vector3 α) (sat_id sat_i scc : Nat) :
    ∀ (idxs : List Nat) (v : Mat) (u c : Nat), u ∈ idxs →
      c ∈ List.range' sat_i colors_per_satellite →
      getCell (update_loop angle scenario tpos true sat_id sat_i scc idxs v) u c ≠
        BeamState.AVAILIBLE := by
  intro idxs
  induction idxs with
  | nil => intro v u c hu _; cases hu
  | cons user_i rest ih =>
    intro v u c hu hc
    rw [update_loop_cons_true]
    rcases List.mem_cons.mp hu with h | h
    · subst h
      intro hav
      exact mark_full_row_not_avail u c _ v hc
        (cell_mono_avail
          (cell_mono_update_loop angle scenario tpos true sat_id sat_i scc rest _) hav)
    · exact ih _ u c h hc

theorem update_loop_nonfull_avail (angle : Vector3 α → Vector3 α → Vector3 α → α)
    (scenario : Scenario α) (tpos : Vector3 α) (sat_id sat_i scc : Nat) :
    ∀ (idxs : List Nat) (v : Mat) (u : Nat), u ∈ idxs →
      getCell (update_loop angle scenario tpos false sat_id sat_i scc idxs v) u scc =
        BeamState.AVAILIBLE →
      ¬ (angle (lookupPos scenario.sats sat_id) tpos (lookupPos scenario.users (u + 1)) <
          self_interference_max) := by
  intro idxs
  induction idxs with
  | nil => intro v u hu; cases hu
  | cons user_i rest ih =>
    intro v u hu hav
    rw [update_loop_cons_false] at hav
    rcases List.mem_cons.mp hu with h | h
    · subst h
      by_cases hg : getCell v u scc ≠ BeamState.AVAILIBLE
      · rw [if_pos hg] at hav
        exact absurd
          (cell_mono_avail
            (cell_mono_update_loop angle scenario tpos false sat_id sat_i scc rest v) hav) hg
      · rw [if_neg hg] at hav
        push_neg at hg
        by_cases ha : angle (lookupPos scenario.sats sat_id) tpos
            (lookupPos scenario.users (u + 1)) < self_interference_max
        · rw [if_pos ha] at hav
          obtain ⟨hr, hcl⟩ := getCell_in_range v u scc (by rw [hg]; simp)
          have hprev := cell_mono_avail
            (cell_mono_update_loop angle scenario tpos false sat_id sat_i scc rest _) hav
          rw [getCell_writeCell, if_pos ⟨rfl, rfl, hr, hcl⟩] at hprev
          cases hprev
        · exact ha
    · by_cases hg : getCell v user_i scc ≠ BeamState.AVAILIBLE
      · rw [if_pos hg] at hav
        exact ih _ u h hav
      · rw [if_neg hg] at hav
        exact ih _ u h hav

theorem length_update_visibility (angle : Vector3 α → Vector3 α → Vector3 α → α)
    (v : Mat) (scenario : Scenario α) (tui sid ci bi : Nat) :
    (update_visibility angle v scenario tui sid ci bi).length = v.length := by
  simp only [update_visibility]
  rw [length_update_loop]
  simp only [set_user_beam]
  exact length_writeCell ..

theorem cell_mono_update_visibility (angle : Vector3 α → Vector3 α → Vector3 α → α)
    (v : Mat) (scenario : Scenario α) (tui sid ci bi : Nat)
    (h : getCell v tui ((sid - 1) * colors_per_satellite + ci) = BeamState.AVAILIBLE) :
    cell_mono v (update_visibility angle v scenario tui sid ci bi) := by
  simp only [update_visibility]
  refine cell_mono_trans ?_ (cell_mono_update_loop _ _ _ _ _ _ _ _ _)
  exact cell_mono_writeCell v tui _ BeamState.IN_USE (by simp) h

theorem update_visibility_sat_not_avail (angle : Vector3 α → Vector3 α → Vector3 α → α)
    (v : Mat) (scenario : Scenario α) (tui sid ci : Nat) (u c : Nat)
    (hc : c ∈ List.range' ((sid - 1) * colors_per_satellite) colors_per_satellite) :
    getCell (update_visibility angle v scenario tui sid ci (beams_per_satellite - 1)) u c ≠
      BeamState.AVAILIBLE := by
  simp only [update_visibility, beq_self_eq_true]
  by_cases hu : u < (set_user_beam v tui ci sid BeamState.IN_USE).length
  · exact update_loop_full_not_avail angle scenario _ sid _ _ _ _ u c
      (List.mem_range.mpr hu) hc
  · intro hav
    refine hu ?_
    obtain ⟨hr, _⟩ := getCell_in_range _ u c (by rw [hav]; simp)
    rw [length_update_loop] at hr
    exact hr

theorem update_visibility_nonfull_avail (angle : Vector3 α → Vector3 α → Vector3 α → α)
    (v : Mat) (scenario : Scenario α) (tui sid ci bi : Nat)
    (hbi : bi ≠ beams_per_satellite - 1) (u : Nat)
    (hav : getCell (update_visibility angle v scenario tui sid ci bi) u
      ((sid - 1) * colors_per_satellite + ci) = BeamState.AVAILIBLE) :
    ¬ (angle (lookupPos scenario.sats sid) (lookupPos scenario.users (tui + 1))
        (lookupPos scenario.users (u + 1)) < self_interference_max) := by
  have hbeq : (bi == beams_per_satellite - 1) = false := by
    simp [hbi]
  simp only [update_visibility, hbeq] at hav
  by_cases hu : u < (set_user_beam v tui ci sid BeamState.IN_USE).length
  · exact update_loop_nonfull_avail angle scenario _ sid _ _ _ _ u
      (List.mem_range.mpr hu) hav
  · exact absurd hav (by
      refine fun hav' => hu ?_
      obtain ⟨hr, _⟩ := getCell_in_range _ u _ (by rw [hav']; simp)
      rw [length_update_loop] at hr
      exact hr)

/-! ### The first-fit column scan -/

theorem find_avail_some (row : List BeamState) (i : Nat) (h : find_avail row = some i) :
    row.getD i BeamState.UNAVAILIBLE = BeamState.AVAILIBLE ∧
      ∀ k < i, row.getD k BeamState.UNAVAILIBLE ≠ BeamState.AVAILIBLE := by
  induction row generalizing i with
  | nil => cases h
  | cons st rest ih =>
    by_cases hst : st = BeamState.AVAILIBLE
    · rw [find_avail, if_pos hst] at h
      cases h
      exact ⟨hst, fun k hk => absurd hk (Nat.not_lt_zero k)⟩
    · rw [find_avail, if_neg hst] at h
      cases hj : find_avail rest with
      | none => rw [hj] at h; cases h
      | some j =>
        rw [hj] at h
        simp only [Option.map_some'] at h
        cases h
        obtain ⟨h1, h2⟩ := ih j hj
        refine ⟨by simpa using h1, ?_⟩
        intro k hk
        cases k with
        | zero => simpa using hst
        | succ k' =>
          rw [List.getD_cons_succ]
          exact h2 k' (Nat.lt_of_succ_lt_succ hk)

theorem find_avail_none (row : List BeamState) (h : find_avail row = none) :
    ∀ k, row.getD k BeamState.UNAVAILIBLE ≠ BeamState.AVAILIBLE := by
  induction row with
  | nil => intro k; simp [List.getD]
  | cons st rest ih =>
    by_cases hst : st = BeamState.AVAILIBLE
    · rw [find_avail, if_pos hst] at h
      cases h
    · rw [find_avail, if_neg hst] at h
      cases hj : find_avail rest with
      | some j => rw [hj] at h; cases h
      | none =>
        intro k
        cases k with
        | zero => simpa using hst
        | succ k' =>
          rw [List.getD_cons_succ]
          exact ih hj k'

/-! ### Solution-dict lemmas -/

theorem lookupList_nil (k : Nat) : lookupList [] k = [] := rfl

theorem lookup_cons_key (l : List (Nat × List Record)) (e : Nat × List Record) (k : Nat)
    (h : e.1 = k) : List.lookup k (e :: l) = some e.2 := by
  rw [List.lookup_cons]
  have hb : (k == e.1) = true := by simp [h]
  rw [hb]

theorem lookup_cons_skip (l : List (Nat × List Record)) (e : Nat × List Record) (k : Nat)
    (h : e.1 ≠ k) : List.lookup k (e :: l) = List.lookup k l := by
  rw [List.lookup_cons]
  have hb : (k == e.1) = false := by
    simp only [beq_eq_false_iff_ne]
    exact fun hh => h hh.symm
  rw [hb]

theorem lookup_map_append (k : Nat) (r : Record) :
    ∀ sol : Solution, (sol.lookup k).isSome = true →
      (sol.map (fun e => if e.1 = k then (e.1, e.2 ++ [r]) else e)).lookup k =
        some ((sol.lookup k).getD [] ++ [r]) := by
  intro sol
  induction sol with
  | nil => intro h; cases h
  | cons e rest ih =>
    intro h
    by_cases he : e.1 = k
    · simp only [List.map_cons, if_pos he]
      rw [lookup_cons_key rest e k he,
        lookup_cons_key (rest.map (fun e => if e.1 = k then (e.1, e.2 ++ [r]) else e))
          (e.1, e.2 ++ [r]) k he]
      rfl
    · have h' : (rest.lookup k).isSome = true := by
        rwa [lookup_cons_skip rest e k he] at h
      simp only [List.map_cons, if_neg he]
      rw [lookup_cons_skip (rest.map (fun e => if e.1 = k then (e.1, e.2 ++ [r]) else e)) e k he,
        lookup_cons_skip rest e k he]
      exact ih h'

theorem lookupList_dictAppend_self (sol : Solution) (k : Nat) (r : Record) :
    lookupList (dictAppend sol k r) k = lookupList sol k ++ [r] := by
  by_cases h : (sol.lookup k).isSome = true
  · rw [dictAppend, if_pos h, lookupList, lookup_map_append k r sol h]
    rfl
  · rw [dictAppend, if_neg h, lookupList, List.lookup_append]
    have hnone : sol.lookup k = none := by
      cases hx : sol.lookup k with
      | none => rfl
      | some val => rw [hx] at h; simp at h
    rw [hnone, lookup_cons_key [] (k, [r]) k rfl]
    simp [lookupList, hnone]

theorem lookup_map_other (k : Nat) (r : Record) (s : Nat) (hne : s ≠ k) :
    ∀ sol : Solution,
      (sol.map (fun e => if e.1 = k then (e.1, e.2 ++ [r]) else e)).lookup s =
        sol.lookup s := by
  intro sol
  induction sol with
  | nil => rfl
  | cons e rest ih =>
    by_cases he : e.1 = k
    · have hse : e.1 ≠ s := by rw [he]; exact Ne.symm hne
      simp only [List.map_cons, if_pos he]
      rw [lookup_cons_skip _ (e.1, e.2 ++ [r]) s hse, lookup_cons_skip rest e s hse]
      exact ih
    · simp only [List.map_cons, if_neg he]
      by_cases hse : e.1 = s
      · rw [lookup_cons_key _ e s hse, lookup_cons_key rest e s hse]
      · rw [lookup_cons_skip _ e s hse, lookup_cons_skip rest e s hse]
        exact ih

theorem lookupList_dictAppend_other (sol : Solution) (k : Nat) (r : Record) (s : Nat)
    (hne : s ≠ k) : lookupList (dictAppend sol k r) s = lookupList sol s := by
  by_cases h : (sol.lookup k).isSome = true
  · rw [dictAppend, if_pos h, lookupList, lookup_map_other k r s hne]
    rfl
  · rw [dictAppend, if_neg h, lookupList, List.lookup_append]
    have h2 : List.lookup s [(k, [r])] = none := by
      rw [lookup_cons_skip [] (k, [r]) s (Ne.symm hne)]
      rfl
    rw [h2]
    simp [lookupList]

theorem lookupList_dictAppend_cases (sol : Solution) (k : Nat) (r : Record) (s a : Nat)
    (ra : Record) (h : (lookupList (dictAppend sol k r) s)[a]? = some ra) :
    (lookupList sol s)[a]? = some ra ∨
      (s = k ∧ a = (lookupList sol k).length ∧ ra = r) := by
  by_cases hs : s = k
  · subst hs
    rw [lookupList_dictAppend_self] at h
    rcases Nat.lt_trichotomy a (lookupList sol s).length with hlt | heq | hgt
    · left
      rwa [List.getElem?_append, if_pos hlt] at h
    · right
      subst heq
      rw [List.getElem?_concat_length] at h
      cases h
      exact ⟨rfl, rfl, rfl⟩
    · rw [List.getElem?_append, if_neg (by omega)] at h
      rw [List.getElem?_len_le (by simp; omega)] at h
      cases h
  · left
    rwa [lookupList_dictAppend_other sol k r s hs] at h

theorem mem_lookupList_dictAppend (sol : Solution) (k : Nat) (r : Record) (s : Nat)
    (ra : Record) (h : ra ∈ lookupList (dictAppend sol k r) s) :
    ra ∈ lookupList sol s ∨ (s = k ∧ ra = r) := by
  by_cases hs : s = k
  · subst hs
    rw [lookupList_dictAppend_self] at h
    rcases List.mem_append.mp h with hm | hm
    · exact Or.inl hm
    · exact Or.inr ⟨rfl, by simpa using hm⟩
  · rw [lookupList_dictAppend_other sol k r s hs] at h
    exact Or.inl h

/-! ### One step of the greedy solver -/

theorem assign_user_none (angle : Vector3 α → Vector3 α → Vector3 α → α)
    (scenario : Scenario α) (sol : Solution) (v : Mat) (user_i : Nat)
    (h : find_avail (v.getD user_i []) = none) :
    assign_user angle scenario sol v user_i = (sol, v) := by
  simp only [assign_user]
  rw [h]

theorem assign_user_some (angle : Vector3 α → Vector3 α → Vector3 α → α)
    (scenario : Scenario α) (sol : Solution) (v : Mat) (user_i i : Nat)
    (h : find_avail (v.getD user_i []) = some i) :
    assign_user angle scenario sol v user_i =
      (dictAppend sol (i / colors_per_satellite + 1) (user_i + 1, i % colors_per_satellite),
       update_visibility angle v scenario user_i (i / colors_per_satellite + 1)
         (i % colors_per_satellite)
         ((lookupList sol (i / colors_per_satellite + 1)).length)) := by
  have hlen : (lookupList
      (dictAppend sol (i / colors_per_satellite + 1) (user_i + 1, i % colors_per_satellite))
      (i / colors_per_satellite + 1)).length - 1 =
      (lookupList sol (i / colors_per_satellite + 1)).length := by
    rw [lookupList_dictAppend_self]
    simp
  simp only [assign_user]
  rw [h]
  dsimp only
  rw [hlen]

theorem greedy_cons (angle : Vector3 α → Vector3 α → Vector3 α → α)
    (scenario : Scenario α) (user_i : Nat) (rest : List Nat) (sol : Solution) (v : Mat) :
    greedy angle scenario (user_i :: rest) sol v =
      greedy angle scenario rest (assign_user angle scenario sol v user_i).1
        (assign_user angle scenario sol v user_i).2 := rfl

theorem assign_col (i : Nat) :
    (i / colors_per_satellite + 1 - 1) * colors_per_satellite + i % colors_per_satellite = i := by
  simp only [colors_per_satellite]
  omega

theorem assign_target_avail (v : Mat) (user_i i : Nat)
    (h : find_avail (v.getD user_i []) = some i) :
    getCell v user_i i = BeamState.AVAILIBLE :=
  (find_avail_some _ i h).1

theorem cell_mono_assign_user (angle : Vector3 α → Vector3 α → Vector3 α → α)
    (scenario : Scenario α) (sol : Solution) (v : Mat) (user_i : Nat) :
    cell_mono v (assign_user angle scenario sol v user_i).2 := by
  cases hf : find_avail (v.getD user_i []) with
  | none => rw [assign_user_none angle scenario sol v user_i hf]; exact cell_mono_refl v
  | some i =>
    rw [assign_user_some angle scenario sol v user_i i hf]
    exact cell_mono_update_visibility angle v scenario user_i _ _ _
      (by rw [assign_col]; exact assign_target_avail v user_i i hf)

/-! ### Invariant preservation over the greedy loop -/

theorem assign_user_inv1 (angle : Vector3 α → Vector3 α → Vector3 α → α)
    (scenario : Scenario α) (sol : Solution) (v : Mat) (user_i : Nat)
    (h1 : sol_pairs_ok angle scenario sol) (h2 : sol_matrix_ok angle scenario sol v) :
    sol_pairs_ok angle scenario (assign_user angle scenario sol v user_i).1 ∧
      sol_matrix_ok angle scenario (assign_user angle scenario sol v user_i).1
        (assign_user angle scenario sol v user_i).2 := by
  cases hf : find_avail (v.getD user_i []) with
  | none =>
    rw [assign_user_none angle scenario sol v user_i hf]
    exact ⟨h1, h2⟩
  | some i =>
    rw [assign_user_some angle scenario sol v user_i i hf]
    have havail : getCell v user_i i = BeamState.AVAILIBLE := assign_target_avail v user_i i hf
    have hcol := assign_col i
    have hmono : cell_mono v
        (update_visibility angle v scenario user_i (i / colors_per_satellite + 1)
          (i % colors_per_satellite)
          ((lookupList sol (i / colors_per_satellite + 1)).length)) :=
      cell_mono_update_visibility angle v scenario user_i _ _ _ (by rw [hcol]; exact havail)
    constructor
    · -- the pairwise condition on the extended solution
      intro s a b ra rb hab hga hgb hcolor
      rcases lookupList_dictAppend_cases sol _ _ s b rb hgb with hb | ⟨hs, hbl, hrb⟩
      · rcases lookupList_dictAppend_cases sol _ _ s a ra hga with ha | ⟨hs2, hal, _⟩
        · exact h1 s a b ra rb hab ha hb hcolor
        · exfalso
          subst hs2
          have hblen : b < (lookupList sol (i / colors_per_satellite + 1)).length :=
            (List.getElem?_eq_some.mp hb).1
          omega
      · subst hs
        subst hrb
        rcases lookupList_dictAppend_cases sol _ _ _ a ra hga with ha | ⟨_, hal, _⟩
        · have hmem : ra ∈ lookupList sol (i / colors_per_satellite + 1) := by
            rcases List.getElem?_eq_some.mp ha with ⟨hlt, hget⟩
            rw [← hget]
            exact List.getElem_mem _
          have hcell : getCell v user_i
              ((i / colors_per_satellite + 1 - 1) * colors_per_satellite + ra.2) =
              BeamState.AVAILIBLE := by
            rw [hcolor]
            show getCell v user_i ((i / colors_per_satellite + 1 - 1) * colors_per_satellite +
              i % colors_per_satellite) = _
            rw [assign_col i]
            exact havail
          have := h2 _ ra hmem user_i hcell
          simpa using this
        · omega
    · -- the solution/matrix coupling on the updated matrix
      intro s r hmem u hav'
      rcases mem_lookupList_dictAppend sol _ _ s r hmem with hm | ⟨hs, hr⟩
      · exact h2 s r hm u (cell_mono_avail hmono hav')
      · subst hs
        subst hr
        by_cases hnb : (lookupList sol (i / colors_per_satellite + 1)).length =
            beams_per_satellite - 1
        · exfalso
          rw [hnb] at hav'
          refine update_visibility_sat_not_avail angle v scenario user_i
            (i / colors_per_satellite + 1) (i % colors_per_satellite) u _ ?_ hav'
          refine List.mem_range'.mpr ⟨i % colors_per_satellite, ?_, by omega⟩
          simp [colors_per_satellite]
          omega
        · have := update_visibility_nonfull_avail angle v scenario user_i
            (i / colors_per_satellite + 1) (i % colors_per_satellite)
            ((lookupList sol (i / colors_per_satellite + 1)).length) hnb u hav'
          simpa using this

theorem assign_block_mem (i : Nat) :
    i ∈ List.range' ((i / colors_per_satellite + 1 - 1) * colors_per_satellite)
      colors_per_satellite := by
  refine List.mem_range'.mpr ⟨i % colors_per_satellite, ?_, ?_⟩
  · simp only [colors_per_satellite]
    omega
  · simp only [colors_per_satellite]
    omega

theorem assign_user_budget (angle : Vector3 α → Vector3 α → Vector3 α → α)
    (scenario : Scenario α) (sol : Solution) (v : Mat) (user_i : Nat)
    (h : sat_budget_ok sol v) :
    sat_budget_ok (assign_user angle scenario sol v user_i).1
      (assign_user angle scenario sol v user_i).2 := by
  cases hf : find_avail (v.getD user_i []) with
  | none =>
    rw [assign_user_none angle scenario sol v user_i hf]
    exact h
  | some i =>
    rw [assign_user_some angle scenario sol v user_i i hf]
    have havail : getCell v user_i i = BeamState.AVAILIBLE := assign_target_avail v user_i i hf
    have hmono : cell_mono v
        (update_visibility angle v scenario user_i (i / colors_per_satellite + 1)
          (i % colors_per_satellite)
          ((lookupList sol (i / colors_per_satellite + 1)).length)) :=
      cell_mono_update_visibility angle v scenario user_i _ _ _
        (by rw [assign_col]; exact havail)
    have hodd : (lookupList sol (i / colors_per_satellite + 1)).length < beams_per_satellite := by
      rcases Nat.lt_or_ge (lookupList sol (i / colors_per_satellite + 1)).length
          beams_per_satellite with hlt | hge
      · exact hlt
      · exfalso
        have hle := (h (i / colors_per_satellite + 1)).1
        have heq : (lookupList sol (i / colors_per_satellite + 1)).length =
            beams_per_satellite := Nat.le_antisymm hle hge
        exact (h (i / colors_per_satellite + 1)).2 heq user_i i (assign_block_mem i) havail
    intro s
    by_cases hs : s = i / colors_per_satellite + 1
    · subst hs
      rw [lookupList_dictAppend_self]
      simp only [List.length_append, List.length_cons, List.length_nil]
      constructor
      · omega
      · intro hfull u c hc
        have hnb : (lookupList sol (i / colors_per_satellite + 1)).length =
            beams_per_satellite - 1 := by omega
        rw [hnb]
        exact update_visibility_sat_not_avail angle v scenario user_i
          (i / colors_per_satellite + 1) (i % colors_per_satellite) u c hc
    · rw [lookupList_dictAppend_other sol _ _ s hs]
      refine ⟨(h s).1, ?_⟩
      intro hfull u c hc hav'
      exact (h s).2 hfull u c hc (cell_mono_avail hmono hav')

theorem greedy_budget (angle : Vector3 α → Vector3 α → Vector3 α → α)
    (scenario : Scenario α) :
    ∀ (idxs : List Nat) (sol : Solution) (v : Mat),
      sat_budget_ok sol v →
      sat_budget_ok (greedy angle scenario idxs sol v).1 (greedy angle scenario idxs sol v).2 := by
  intro idxs
  induction idxs with
  | nil => intro sol v h; exact h
  | cons user_i rest ih =>
    intro sol v h
    rw [greedy_cons]
    exact ih _ _ (assign_user_budget angle scenario sol v user_i h)

theorem greedy_inv1 (angle : Vector3 α → Vector3 α → Vector3 α → α)
    (scenario : Scenario α) :
    ∀ (idxs : List Nat) (sol : Solution) (v : Mat),
      sol_pairs_ok angle scenario sol → sol_matrix_ok angle scenario sol v →
      sol_pairs_ok angle scenario (greedy angle scenario idxs sol v).1 := by
  intro idxs
  induction idxs with
  | nil => intro sol v h1 _; exact h1
  | cons user_i rest ih =>
    intro sol v h1 h2
    rw [greedy_cons]
    obtain ⟨h1', h2'⟩ := assign_user_inv1 angle scenario sol v user_i h1 h2
    exact ih _ _ h1' h2'

theorem greedy_unique (angle : Vector3 α → Vector3 α → Vector3 α → α)
    (scenario : Scenario α) :
    ∀ (idxs : List Nat) (sol : Solution) (v : Mat),
      one_beam_per_user sol →
      (∀ (s a : Nat) (ra : Record), (lookupList sol s)[a]? = some ra →
        ∀ x ∈ idxs, ra.1 ≠ x + 1) →
      idxs.Nodup →
      one_beam_per_user (greedy angle scenario idxs sol v).1 := by
  intro idxs
  induction idxs with
  | nil => intro sol v huniq _ _; exact huniq
  | cons user_i rest ih =>
    intro sol v huniq hfresh hnodup
    rw [greedy_cons]
    have hnd := List.nodup_cons.mp hnodup
    cases hf : find_avail (v.getD user_i []) with
    | none =>
      rw [assign_user_none angle scenario sol v user_i hf]
      exact ih sol v huniq
        (fun s a ra hg x hx => hfresh s a ra hg x (List.mem_cons_of_mem _ hx)) hnd.2
    | some i =>
      rw [assign_user_some angle scenario sol v user_i i hf]
      refine ih _ _ ?_ ?_ hnd.2
      · intro s a ra s' a' ra' hga hga' heq
        rcases lookupList_dictAppend_cases sol _ _ s a ra hga with ha | ⟨hs, hal, hra⟩
        · rcases lookupList_dictAppend_cases sol _ _ s' a' ra' hga' with ha' | ⟨hs', hal', hra'⟩
          · exact huniq s a ra s' a' ra' ha ha' heq
          · exfalso
            refine hfresh s a ra ha user_i (List.mem_cons_self _ _) ?_
            rw [heq, hra']
        · rcases lookupList_dictAppend_cases sol _ _ s' a' ra' hga' with ha' | ⟨hs', hal', hra'⟩
          · exfalso
            refine hfresh s' a' ra' ha' user_i (List.mem_cons_self _ _) ?_
            rw [← heq, hra]
          · subst hs
            subst hs'
            subst hal
            subst hal'
            exact ⟨rfl, rfl⟩
      · intro s a ra hga x hx
        rcases lookupList_dictAppend_cases sol _ _ s a ra hga with ha | ⟨hs, hal, hra⟩
        · exact hfresh s a ra ha x (List.mem_cons_of_mem _ hx)
        · rw [hra]
          have : user_i ≠ x := fun hex => hnd.1 (hex ▸ hx)
          simpa using fun hh => this (by omega)

/-! ### Matrix construction -/

theorem rowlen_writeCell (v : Mat) (ui col : Nat) (st : BeamState) (u : Nat) :
    ((writeCell v ui col st).getD u []).length = (v.getD u []).length := by
  unfold writeCell
  rw [getD_set_row]
  by_cases h : u = ui ∧ ui < v.length
  · rw [if_pos h, List.length_set, h.1]
  · rw [if_neg h]

theorem setCell_eq_some (v : Mat) (ui col : Nat) (st : BeamState)
    (h1 : ui < v.length) (h2 : col < (v.getD ui []).length) :
    setCell v ui col st = some (writeCell v ui col st) := by
  unfold setCell writeCell
  cases hv : v[ui]? with
  | none =>
    rw [List.getElem?_eq_none_iff] at hv
    omega
  | some row =>
    have hrow : v.getD ui [] = row := by
      rw [List.getD_eq_getElem?_getD, hv]
      rfl
    rw [hrow] at h2
    dsimp only
    rw [if_pos h2, hrow]

theorem setCell_some_inv (v : Mat) (ui col : Nat) (st : BeamState) (v' : Mat)
    (h : setCell v ui col st = some v') :
    v' = writeCell v ui col st ∧ ui < v.length ∧ col < (v.getD ui []).length := by
  unfold setCell at h
  cases hv : v[ui]? with
  | none => rw [hv] at h; cases h
  | some row =>
    rw [hv] at h
    dsimp only at h
    have hrow : v.getD ui [] = row := by
      rw [List.getD_eq_getElem?_getD, hv]
      rfl
    have hui : ui < v.length := by
      rcases List.getElem?_eq_some.mp hv with ⟨hlt, _⟩
      exact hlt
    by_cases hc : col < row.length
    · rw [if_pos hc] at h
      cases h
      exact ⟨by rw [writeCell, hrow], hui, by rw [hrow]; exact hc⟩
    · rw [if_neg hc] at h
      cases h

theorem markColors_effect (u b U S : Nat) (hu : u < U) (hb : b < S) :
    ∀ (cols : List Nat) (v : Mat), (∀ i ∈ cols, i < colors_per_satellite) →
      v.length = U → (∀ u', u' < U → (v.getD u' []).length = S * colors_per_satellite) →
      ∃ v', markColors u b cols v = some v' ∧
        v'.length = U ∧
        (∀ u', u' < U → (v'.getD u' []).length = S * colors_per_satellite) ∧
        ∀ u' c, getCell v' u' c =
          if u' = u ∧ (∃ i ∈ cols, c = b * colors_per_satellite + i)
          then BeamState.AVAILIBLE else getCell v u' c := by
  intro cols
  induction cols with
  | nil =>
    intro v _ hlen hrow
    refine ⟨v, rfl, hlen, hrow, ?_⟩
    intro u' c
    rw [if_neg]
    rintro ⟨_, i, hi, _⟩
    cases hi
  | cons i rest ih =>
    intro v hcols hlen hrow
    have hi : i < colors_per_satellite := hcols i (List.mem_cons_self _ _)
    have hcol : b * colors_per_satellite + i < S * colors_per_satellite := by
      have hle : (b + 1) * colors_per_satellite ≤ S * colors_per_satellite :=
        Nat.mul_le_mul_right _ hb
      rw [Nat.succ_mul] at hle
      omega
    have hrowu : (v.getD u []).length = S * colors_per_satellite := hrow u hu
    have hset := setCell_eq_some v u (b * colors_per_satellite + i) BeamState.AVAILIBLE
      (by omega) (by rw [hrowu]; omega)
    obtain ⟨v', hmk, hlen', hrow', hget⟩ :=
      ih (writeCell v u (b * colors_per_satellite + i) BeamState.AVAILIBLE)
        (fun j hj => hcols j (List.mem_cons_of_mem _ hj))
        (by rw [length_writeCell]; exact hlen)
        (fun u' hu' => by rw [rowlen_writeCell]; exact hrow u' hu')
    refine ⟨v', ?_, hlen', hrow', ?_⟩
    · simp only [markColors, hset]
      exact hmk
    · intro u' c
      rw [hget u' c, getCell_writeCell]
      by_cases h1 : u' = u ∧ (∃ j ∈ rest, c = b * colors_per_satellite + j)
      · rw [if_pos h1]
        obtain ⟨j, hj, hc⟩ := h1.2
        rw [if_pos ⟨h1.1, j, List.mem_cons_of_mem _ hj, hc⟩]
      · rw [if_neg h1]
        by_cases h2 : u' = u ∧ c = b * colors_per_satellite + i ∧ u < v.length ∧
            b * colors_per_satellite + i < (v.getD u []).length
        · rw [if_pos h2, if_pos ⟨h2.1, i, List.mem_cons_self _ _, h2.2.1⟩]
        · rw [if_neg h2, if_neg ?_]
          rintro ⟨he, j, hj, hc⟩
          rcases List.mem_cons.mp hj with hj0 | hj1
          · subst hj0
            exact h2 ⟨he, hc, by omega, by omega⟩
          · exact h1 ⟨he, j, hj1, hc⟩

theorem mem_mkObjs (pos : Nat → Vector3 α) (n : Nat) (e : Nat × Vector3 α)
    (h : e ∈ mkObjs pos n) : ∃ k, k < n ∧ e = (k + 1, pos k) := by
  obtain ⟨k, hk, he⟩ := List.mem_map.mp h
  exact ⟨k, List.mem_range.mp hk, he.symm⟩

theorem mem_mkObjs_fst (pos : Nat → Vector3 α) (n x : Nat) :
    x ∈ (mkObjs pos n).map Prod.fst ↔ (1 ≤ x ∧ x ≤ n) := by
  constructor
  · intro h
    obtain ⟨e, he, hx⟩ := List.mem_map.mp h
    obtain ⟨k, hk, hke⟩ := mem_mkObjs pos n e he
    subst hke
    subst hx
    simp
    omega
  · intro ⟨h1, h2⟩
    refine List.mem_map.mpr ⟨(x, pos (x - 1)), ?_, rfl⟩
    refine List.mem_map.mpr ⟨x - 1, List.mem_range.mpr (by omega), ?_⟩
    simp
    omega

theorem markPair_effect (angle : Vector3 α → Vector3 α → Vector3 α → α)
    (ints : List (Nat × Vector3 α)) (k j U S : Nat) (pu ps : Vector3 α)
    (hk : k < U) (hj : j < S) (v : Mat)
    (hlen : v.length = U)
    (hrow : ∀ u', u' < U → (v.getD u' []).length = S * colors_per_satellite) :
    ∃ v', markPair angle ints (k + 1, pu) (j + 1, ps) v = some v' ∧
      v'.length = U ∧
      (∀ u', u' < U → (v'.getD u' []).length = S * colors_per_satellite) ∧
      ∀ u' c, getCell v' u' c =
        if u' = k ∧ j * colors_per_satellite ≤ c ∧
            c < j * colors_per_satellite + colors_per_satellite ∧
            pair_visible angle ints pu ps
        then BeamState.AVAILIBLE else getCell v u' c := by
  by_cases h1 : angle pu origin ps ≤ 180 - max_user_visible_angle
  · refine ⟨v, ?_, hlen, hrow, ?_⟩
    · simp only [markPair, if_pos h1]
    · intro u' c
      rw [if_neg]
      rintro ⟨_, _, _, hvis, _⟩
      exact absurd h1 (not_le.mpr hvis)
  · by_cases h2 : ints.any
        (fun ip => angle pu ip.2 ps < non_starlink_interference_max) = true
    · refine ⟨v, ?_, hlen, hrow, ?_⟩
      · simp only [markPair, if_neg h1, h2]
        rfl
      · intro u' c
        rw [if_neg]
        rintro ⟨_, _, _, _, hvis2⟩
        obtain ⟨ip, hip, hlt⟩ := List.any_eq_true.mp h2
        exact hvis2 ip hip (of_decide_eq_true hlt)
    · have hvis : pair_visible angle ints pu ps := by
        refine ⟨not_le.mp h1, ?_⟩
        intro ip hip hlt
        rw [Bool.not_eq_true] at h2
        exact (List.any_eq_false.mp h2) ip hip (decide_eq_true hlt)
      obtain ⟨v', hmk, hlen', hrow', hget⟩ :=
        markColors_effect k j U S hk hj (List.range colors_per_satellite) v
          (fun i hi => List.mem_range.mp hi) hlen hrow
      refine ⟨v', ?_, hlen', hrow', ?_⟩
      · simp only [markPair, if_neg h1, Bool.not_eq_true] at *
        simp only [markPair, h2, if_neg h1]
        simp only [Nat.add_sub_cancel]
        exact hmk
      · intro u' c
        rw [hget u' c]
        by_cases hcond : u' = k ∧ j * colors_per_satellite ≤ c ∧
            c < j * colors_per_satellite + colors_per_satellite
        · have hA : u' = k ∧ ∃ i ∈ List.range colors_per_satellite,
              c = j * colors_per_satellite + i := by
            obtain ⟨he, hc1, hc2⟩ := hcond
            exact ⟨he, c - j * colors_per_satellite, List.mem_range.mpr (by omega), by omega⟩
          rw [if_pos hA, if_pos ⟨hcond.1, hcond.2.1, hcond.2.2, hvis⟩]
        · have hnA : ¬ (u' = k ∧ ∃ i ∈ List.range colors_per_satellite,
              c = j * colors_per_satellite + i) := by
            rintro ⟨he, i, hi, hc⟩
            have hi4 := List.mem_range.mp hi
            exact hcond ⟨he, by omega, by omega⟩
          rw [if_neg hnA, if_neg (fun hh => hcond ⟨hh.1, hh.2.1, hh.2.2.1⟩)]

theorem block_decomp (c j : Nat) :
    c / colors_per_satellite = j ↔
      j * colors_per_satellite ≤ c ∧ c < j * colors_per_satellite + colors_per_satellite := by
  simp only [colors_per_satellite]
  omega

theorem mark_sats_effect (angle : Vector3 α → Vector3 α → Vector3 α → α)
    (ints : List (Nat × Vector3 α)) (spos : Nat → Vector3 α) (k U S : Nat)
    (pu : Vector3 α) (hk : k < U) :
    ∀ (sats : List (Nat × Vector3 α)) (v : Mat),
      (∀ e ∈ sats, ∃ j, j < S ∧ e = (j + 1, spos j)) →
      v.length = U →
      (∀ u', u' < U → (v.getD u' []).length = S * colors_per_satellite) →
      ∃ v', mark_sats angle ints (k + 1, pu) sats v = some v' ∧
        v'.length = U ∧
        (∀ u', u' < U → (v'.getD u' []).length = S * colors_per_satellite) ∧
        ∀ u' c, getCell v' u' c =
          if u' = k ∧ c < S * colors_per_satellite ∧
              (c / colors_per_satellite + 1) ∈ sats.map Prod.fst ∧
              pair_visible angle ints pu (spos (c / colors_per_satellite))
          then BeamState.AVAILIBLE else getCell v u' c := by
  intro sats
  induction sats with
  | nil =>
    intro v _ hlen hrow
    refine ⟨v, rfl, hlen, hrow, ?_⟩
    intro u' c
    rw [if_neg]
    rintro ⟨_, _, hmem, _⟩
    cases hmem
  | cons e rest ih =>
    intro v hsats hlen hrow
    obtain ⟨j, hj, hje⟩ := hsats e (List.mem_cons_self _ _)
    subst hje
    obtain ⟨v1, hmk1, hlen1, hrow1, hget1⟩ :=
      markPair_effect angle ints k j U S pu (spos j) hk hj v hlen hrow
    obtain ⟨v', hmk', hlen', hrow', hget'⟩ :=
      ih v1 (fun e he => hsats e (List.mem_cons_of_mem _ he)) hlen1 hrow1
    refine ⟨v', ?_, hlen', hrow', ?_⟩
    · simp only [mark_sats, hmk1]
      exact hmk'
    · intro u' c
      rw [hget' u' c, hget1 u' c]
      by_cases hjc : c / colors_per_satellite = j
      · -- the head satellite's column block
        have hblock := (block_decomp c j).mp hjc
        by_cases hrest : (c / colors_per_satellite + 1) ∈ rest.map Prod.fst
        · -- also written by a duplicate entry further down the list
          by_cases hvis : u' = k ∧
              pair_visible angle ints pu (spos (c / colors_per_satellite))
          · have hcS : c < S * colors_per_satellite := by
              have : (j + 1) * colors_per_satellite ≤ S * colors_per_satellite :=
                Nat.mul_le_mul_right _ hj
              rw [Nat.succ_mul] at this
              omega
            rw [if_pos ⟨hvis.1, hcS, hrest, hvis.2⟩,
              if_pos ⟨hvis.1, hcS, List.mem_cons_of_mem _ hrest, hvis.2⟩]
          · have hn1 : ¬ (u' = k ∧ c < S * colors_per_satellite ∧
                (c / colors_per_satellite + 1) ∈ rest.map Prod.fst ∧
                pair_visible angle ints pu (spos (c / colors_per_satellite))) := by
              rintro ⟨he, _, _, hv⟩
              exact hvis ⟨he, hv⟩
            rw [if_neg hn1]
            by_cases h2 : u' = k ∧ j * colors_per_satellite ≤ c ∧
                c < j * colors_per_satellite + colors_per_satellite ∧
                pair_visible angle ints pu (spos j)
            · rw [if_pos h2]
              exfalso
              exact hvis ⟨h2.1, by rw [hjc]; exact h2.2.2.2⟩
            · rw [if_neg h2, if_neg]
              rintro ⟨he, hcS, _, hv⟩
              exact h2 ⟨he, hblock.1, hblock.2, by rw [← hjc]; exact hv⟩
        · -- only the head entry covers this block
          have hmemiff : (c / colors_per_satellite + 1) ∈
              ((j + 1, spos j) :: rest).map Prod.fst := by
            simp only [List.map_cons, List.mem_cons]
            exact Or.inl (by rw [hjc])
          by_cases h2 : u' = k ∧ j * colors_per_satellite ≤ c ∧
              c < j * colors_per_satellite + colors_per_satellite ∧
              pair_visible angle ints pu (spos j)
          · have hcS : c < S * colors_per_satellite := by
              have : (j + 1) * colors_per_satellite ≤ S * colors_per_satellite :=
                Nat.mul_le_mul_right _ hj
              rw [Nat.succ_mul] at this
              omega
            have hn1 : ¬ (u' = k ∧ c < S * colors_per_satellite ∧
                (c / colors_per_satellite + 1) ∈ rest.map Prod.fst ∧
                pair_visible angle ints pu (spos (c / colors_per_satellite))) := by
              rintro ⟨_, _, hm, _⟩
              exact hrest hm
            rw [if_neg hn1, if_pos h2,
              if_pos ⟨h2.1, hcS, hmemiff, by rw [hjc]; exact h2.2.2.2⟩]
          · have hn1 : ¬ (u' = k ∧ c < S * colors_per_satellite ∧
                (c / colors_per_satellite + 1) ∈ rest.map Prod.fst ∧
                pair_visible angle ints pu (spos (c / colors_per_satellite))) := by
              rintro ⟨_, _, hm, _⟩
              exact hrest hm
            rw [if_neg hn1, if_neg h2, if_neg]
            rintro ⟨he, hcS, _, hv⟩
            exact h2 ⟨he, hblock.1, hblock.2, by rw [← hjc]; exact hv⟩
      · -- a column of a different satellite's block
        have hn2 : ¬ (u' = k ∧ j * colors_per_satellite ≤ c ∧
            c < j * colors_per_satellite + colors_per_satellite ∧
            pair_visible angle ints pu (spos j)) := by
          rintro ⟨_, hc1, hc2, _⟩
          exact hjc ((block_decomp c j).mpr ⟨hc1, hc2⟩)
        rw [if_neg hn2]
        by_cases h1 : u' = k ∧ c < S * colors_per_satellite ∧
            (c / colors_per_satellite + 1) ∈ rest.map Prod.fst ∧
            pair_visible angle ints pu (spos (c / colors_per_satellite))
        · rw [if_pos h1, if_pos
            ⟨h1.1, h1.2.1, List.mem_cons_of_mem _ h1.2.2.1, h1.2.2.2⟩]
        · rw [if_neg h1, if_neg]
          rintro ⟨he, hcS, hm, hv⟩
          rw [List.map_cons, List.mem_cons] at hm
          rcases hm with hm0 | hm1
          · exact hjc (by omega)
          · exact h1 ⟨he, hcS, hm1, hv⟩

theorem mkObjs_length (pos : Nat → Vector3 α) (n : Nat) : (mkObjs pos n).length = n := by
  simp [mkObjs]

theorem div_lt_of_lt_mul_colors (c S : Nat) (h : c < S * colors_per_satellite) :
    c / colors_per_satellite < S := by
  simp only [colors_per_satellite] at *
  omega

theorem mark_users_effect (angle : Vector3 α → Vector3 α → Vector3 α → α)
    (ints : List (Nat × Vector3 α)) (upos spos : Nat → Vector3 α) (U S : Nat) :
    ∀ (users : List (Nat × Vector3 α)) (v : Mat),
      (∀ e ∈ users, ∃ k, k < U ∧ e = (k + 1, upos k)) →
      v.length = U →
      (∀ u', u' < U → (v.getD u' []).length = S * colors_per_satellite) →
      ∃ v', mark_users angle ints (mkObjs spos S) users v = some v' ∧
        v'.length = U ∧
        (∀ u', u' < U → (v'.getD u' []).length = S * colors_per_satellite) ∧
        ∀ u' c, getCell v' u' c =
          if (u' + 1) ∈ users.map Prod.fst ∧ u' < U ∧ c < S * colors_per_satellite ∧
              pair_visible angle ints (upos u') (spos (c / colors_per_satellite))
          then BeamState.AVAILIBLE else getCell v u' c := by
  intro users
  induction users with
  | nil =>
    intro v _ hlen hrow
    refine ⟨v, rfl, hlen, hrow, ?_⟩
    intro u' c
    rw [if_neg]
    rintro ⟨hmem, _⟩
    cases hmem
  | cons e rest ih =>
    intro v husers hlen hrow
    obtain ⟨k, hk, hke⟩ := husers e (List.mem_cons_self _ _)
    subst hke
    obtain ⟨v1, hmk1, hlen1, hrow1, hget1⟩ :=
      mark_sats_effect angle ints spos k U S (upos k) hk (mkObjs spos S) v
        (fun e he => mem_mkObjs spos S e he) hlen hrow
    obtain ⟨v', hmk', hlen', hrow', hget'⟩ :=
      ih v1 (fun e he => husers e (List.mem_cons_of_mem _ he)) hlen1 hrow1
    refine ⟨v', ?_, hlen', hrow', ?_⟩
    · simp only [mark_users, hmk1]
      exact hmk'
    · intro u' c
      rw [hget' u' c, hget1 u' c]
      by_cases hurest : (u' + 1) ∈ rest.map Prod.fst
      · -- this user also appears further down the list
        by_cases hvis : u' < U ∧ c < S * colors_per_satellite ∧
            pair_visible angle ints (upos u') (spos (c / colors_per_satellite))
        · rw [if_pos ⟨hurest, hvis.1, hvis.2.1, hvis.2.2⟩,
            if_pos ⟨List.mem_cons_of_mem _ hurest, hvis.1, hvis.2.1, hvis.2.2⟩]
        · have hn1 : ¬ ((u' + 1) ∈ rest.map Prod.fst ∧ u' < U ∧
              c < S * colors_per_satellite ∧
              pair_visible angle ints (upos u') (spos (c / colors_per_satellite))) := by
            rintro ⟨_, h1, h2, h3⟩
            exact hvis ⟨h1, h2, h3⟩
          have hn2 : ¬ ((u' + 1) ∈ ((k + 1, upos k) :: rest).map Prod.fst ∧ u' < U ∧
              c < S * colors_per_satellite ∧
              pair_visible angle ints (upos u') (spos (c / colors_per_satellite))) := by
            rintro ⟨_, h1, h2, h3⟩
            exact hvis ⟨h1, h2, h3⟩
          rw [if_neg hn1, if_neg hn2]
          by_cases h2 : u' = k ∧ c < S * colors_per_satellite ∧
              (c / colors_per_satellite + 1) ∈ (mkObjs spos S).map Prod.fst ∧
              pair_visible angle ints (upos k) (spos (c / colors_per_satellite))
          · exfalso
            obtain ⟨he, hc, _, hv⟩ := h2
            subst he
            exact hvis ⟨hk, hc, hv⟩
          · rw [if_neg h2]
      · -- only the head entry (if any) writes this row
        by_cases hu : u' = k
        · subst hu
          by_cases hvis : c < S * colors_per_satellite ∧
              pair_visible angle ints (upos u') (spos (c / colors_per_satellite))
          · have hmemS : (c / colors_per_satellite + 1) ∈ (mkObjs spos S).map Prod.fst := by
              rw [mem_mkObjs_fst]
              have hdiv := div_lt_of_lt_mul_colors c S hvis.1
              exact ⟨Nat.le_add_left 1 _, Nat.succ_le_of_lt hdiv⟩
            rw [if_neg (fun hh => hurest hh.1),
              if_pos ⟨rfl, hvis.1, hmemS, hvis.2⟩,
              if_pos ⟨by simp, hk, hvis.1, hvis.2⟩]
          · have hn2 : ¬ (u' = u' ∧ c < S * colors_per_satellite ∧
                (c / colors_per_satellite + 1) ∈ (mkObjs spos S).map Prod.fst ∧
                pair_visible angle ints (upos u') (spos (c / colors_per_satellite))) := by
              rintro ⟨_, h1, _, h3⟩
              exact hvis ⟨h1, h3⟩
            rw [if_neg (fun hh => hurest hh.1), if_neg hn2, if_neg]
            rintro ⟨_, _, h1, h3⟩
            exact hvis ⟨h1, h3⟩
        · -- a different user's row: untouched by the head entry
          have hn1 : ¬ ((u' + 1) ∈ rest.map Prod.fst ∧ u' < U ∧
              c < S * colors_per_satellite ∧
              pair_visible angle ints (upos u') (spos (c / colors_per_satellite))) := by
            rintro ⟨hm, _⟩
            exact hurest hm
          have hn2 : ¬ (u' = k ∧ c < S * colors_per_satellite ∧
              (c / colors_per_satellite + 1) ∈ (mkObjs spos S).map Prod.fst ∧
              pair_visible angle ints (upos k) (spos (c / colors_per_satellite))) := by
            rintro ⟨he, _⟩
            exact hu he
          rw [if_neg hn1, if_neg hn2, if_neg]
          rintro ⟨hm, _⟩
          rw [List.map_cons, List.mem_cons] at hm
          rcases hm with hm0 | hm1
          · exact hu (by omega)
          · exact hurest hm1

theorem getCell_replicate (n m u c : Nat) :
    getCell (List.replicate n (List.replicate m BeamState.UNAVAILIBLE)) u c =
      BeamState.UNAVAILIBLE := by
  unfold getCell
  rw [List.getD_eq_getElem?_getD
    (List.replicate n (List.replicate m BeamState.UNAVAILIBLE)) u [],
    List.getElem?_replicate]
  by_cases hu : u < n
  · rw [if_pos hu]
    simp only [Option.getD_some]
    rw [List.getD_eq_getElem?_getD, List.getElem?_replicate]
    by_cases hc : c < m
    · rw [if_pos hc]
      rfl
    · rw [if_neg hc]
      rfl
  · rw [if_neg hu]
    rfl

theorem generate_mkObjs (angle : Vector3 α → Vector3 α → Vector3 α → α)
    (upos spos : Nat → Vector3 α) (ints : List (Nat × Vector3 α)) (U S : Nat) :
    ∃ v, generate_visibility_matrix angle
        ⟨mkObjs spos S, mkObjs upos U, ints⟩ = some v ∧
      v.length = U ∧
      (∀ u', u' < U → (v.getD u' []).length = S * colors_per_satellite) ∧
      ∀ u c, getCell v u c =
        if u < U ∧ c < S * colors_per_satellite ∧
            pair_visible angle ints (upos u) (spos (c / colors_per_satellite))
        then BeamState.AVAILIBLE else BeamState.UNAVAILIBLE := by
  have hlen0 : (List.replicate (mkObjs upos U (α := α)).length
      (List.replicate ((mkObjs spos S (α := α)).length * colors_per_satellite)
        BeamState.UNAVAILIBLE)).length = U := by
    rw [List.length_replicate, mkObjs_length]
  have hrow0 : ∀ u', u' < U →
      ((List.replicate (mkObjs upos U (α := α)).length
        (List.replicate ((mkObjs spos S (α := α)).length * colors_per_satellite)
          BeamState.UNAVAILIBLE)).getD u' []).length = S * colors_per_satellite := by
    intro u' hu'
    have hu2 : u' < (mkObjs upos U (α := α)).length := by
      rw [mkObjs_length]
      exact hu'
    rw [List.getD_eq_getElem?_getD, List.getElem?_replicate, if_pos hu2,
      Option.getD_some, List.length_replicate, mkObjs_length]
  obtain ⟨v, hmk, hlen, hrow, hget⟩ :=
    mark_users_effect angle ints upos spos U S (mkObjs upos U) _
      (fun e he => mem_mkObjs upos U e he) hlen0 hrow0
  refine ⟨v, ?_, hlen, hrow, ?_⟩
  · simp only [generate_visibility_matrix]
    exact hmk
  · intro u c
    rw [hget u c]
    have hrepl := getCell_replicate ((mkObjs upos U (α := α)).length)
      ((mkObjs spos S (α := α)).length * colors_per_satellite) u c
    by_cases hcond : u < U ∧ c < S * colors_per_satellite ∧
        pair_visible angle ints (upos u) (spos (c / colors_per_satellite))
    · rw [if_pos ⟨(mem_mkObjs_fst upos U (u + 1)).mpr (by omega), hcond.1, hcond.2.1,
        hcond.2.2⟩, if_pos hcond]
    · rw [if_neg (fun hh => hcond ⟨hh.2.1, hh.2.2.1, hh.2.2.2⟩), if_neg hcond]
      exact hrepl

/-! ### Matrix construction never writes `IN_USE` -/

theorem markColors_no_in_use (u b : Nat) :
    ∀ (cols : List Nat) (v v' : Mat), markColors u b cols v = some v' →
      (∀ u' c, getCell v u' c ≠ BeamState.IN_USE) →
      ∀ u' c, getCell v' u' c ≠ BeamState.IN_USE := by
  intro cols
  induction cols with
  | nil =>
    intro v v' h hv
    cases h
    exact hv
  | cons i rest ih =>
    intro v v' h hv
    simp only [markColors] at h
    cases hset : setCell v u (b * colors_per_satellite + i) BeamState.AVAILIBLE with
    | none => rw [hset] at h; cases h
    | some w =>
      rw [hset] at h
      obtain ⟨hw, _, _⟩ := setCell_some_inv v u _ _ w hset
      subst hw
      refine ih _ v' h ?_
      intro u' c
      rw [getCell_writeCell]
      by_cases hcase : u' = u ∧ c = b * colors_per_satellite + i ∧ u < v.length ∧
          b * colors_per_satellite + i < (v.getD u []).length
      · rw [if_pos hcase]
        simp
      · rw [if_neg hcase]
        exact hv u' c

theorem markPair_no_in_use (angle : Vector3 α → Vector3 α → Vector3 α → α)
    (ints : List (Nat × Vector3 α)) (su ss : Nat × Vector3 α) (v v' : Mat)
    (h : markPair angle ints su ss v = some v')
    (hv : ∀ u' c, getCell v u' c ≠ BeamState.IN_USE) :
    ∀ u' c, getCell v' u' c ≠ BeamState.IN_USE := by
  simp only [markPair] at h
  by_cases h1 : angle su.2 origin ss.2 ≤ 180 - max_user_visible_angle
  · rw [if_pos h1] at h
    cases h
    exact hv
  · rw [if_neg h1] at h
    by_cases h2 : ints.any
        (fun ip => angle su.2 ip.2 ss.2 < non_starlink_interference_max) = true
    · rw [h2] at h
      simp only [if_true] at h
      cases h
      exact hv
    · rw [Bool.not_eq_true] at h2
      rw [h2] at h
      simp only [Bool.false_eq_true, if_false] at h
      exact markColors_no_in_use _ _ _ v v' h hv

theorem mark_sats_no_in_use (angle : Vector3 α → Vector3 α → Vector3 α → α)
    (ints : List (Nat × Vector3 α)) (su : Nat × Vector3 α) :
    ∀ (sats : List (Nat × Vector3 α)) (v v' : Mat),
      mark_sats angle ints su sats v = some v' →
      (∀ u' c, getCell v u' c ≠ BeamState.IN_USE) →
      ∀ u' c, getCell v' u' c ≠ BeamState.IN_USE := by
  intro sats
  induction sats with
  | nil =>
    intro v v' h hv
    cases h
    exact hv
  | cons ss rest ih =>
    intro v v' h hv
    simp only [mark_sats] at h
    cases hp : markPair angle ints su ss v with
    | none => rw [hp] at h; cases h
    | some w =>
      rw [hp] at h
      exact ih w v' h (markPair_no_in_use angle ints su ss v w hp hv)

theorem mark_users_no_in_use (angle : Vector3 α → Vector3 α → Vector3 α → α)
    (ints sats : List (Nat × Vector3 α)) :
    ∀ (users : List (Nat × Vector3 α)) (v v' : Mat),
      mark_users angle ints sats users v = some v' →
      (∀ u' c, getCell v u' c ≠ BeamState.IN_USE) →
      ∀ u' c, getCell v' u' c ≠ BeamState.IN_USE := by
  intro users
  induction users with
  | nil =>
    intro v v' h hv
    cases h
    exact hv
  | cons su rest ih =>
    intro v v' h hv
    simp only [mark_users] at h
    cases hp : mark_sats angle ints su sats v with
    | none => rw [hp] at h; cases h
    | some w =>
      rw [hp] at h
      exact ih w v' h (mark_sats_no_in_use angle ints su sats v w hp hv)

theorem generate_no_in_use (angle : Vector3 α → Vector3 α → Vector3 α → α)
    (scenario : Scenario α) (v : Mat)
    (h : generate_visibility_matrix angle scenario = some v) :
    ∀ u c, getCell v u c = BeamState.AVAILIBLE ∨ getCell v u c = BeamState.UNAVAILIBLE := by
  simp only [generate_visibility_matrix] at h
  have hno := mark_users_no_in_use angle scenario.interferers scenario.sats scenario.users
    _ v h (fun u c => by rw [getCell_replicate]; simp)
  intro u c
  cases hcell : getCell v u c with
  | AVAILIBLE => exact Or.inl rfl
  | UNAVAILIBLE => exact Or.inr rfl
  | IN_USE => exact absurd hcell (hno u c)

/-! ### Boundary scenarios -/

theorem mark_users_sats_nil (angle : Vector3 α → Vector3 α → Vector3 α → α)
    (ints : List (Nat × Vector3 α)) :
    ∀ (users : List (Nat × Vector3 α)) (v : Mat),
      mark_users angle ints [] users v = some v := by
  intro users
  induction users with
  | nil => intro v; rfl
  | cons su rest ih => intro v; exact ih v

theorem greedy_empty_rows (angle : Vector3 α → Vector3 α → Vector3 α → α)
    (scenario : Scenario α) (n : Nat) :
    ∀ (idxs : List Nat) (sol : Solution),
      greedy angle scenario idxs sol (List.replicate n []) =
        (sol, List.replicate n []) := by
  intro idxs
  induction idxs with
  | nil => intro sol; rfl
  | cons user_i rest ih =>
    intro sol
    rw [greedy_cons]
    have hrow : (List.replicate n ([] : List BeamState)).getD user_i [] = [] := by
      rw [List.getD_eq_getElem?_getD, List.getElem?_replicate]
      by_cases hu : user_i < n
      · rw [if_pos hu]
        rfl
      · rw [if_neg hu]
        rfl
    rw [assign_user_none angle scenario sol _ user_i (by rw [hrow]; rfl)]
    exact ih sol

theorem run_no_users (angle : Vector3 α → Vector3 α → Vector3 α → α)
    (sats ints : List (Nat × Vector3 α)) :
    run angle ⟨sats, [], ints⟩ = none := rfl

theorem run_no_sats (angle : Vector3 α → Vector3 α → Vector3 α → α)
    (users ints : List (Nat × Vector3 α)) (hu : users ≠ []) :
    run angle ⟨[], users, ints⟩ = some [] := by
  have hgen : generate_visibility_matrix angle ⟨[], users, ints⟩ =
      some (List.replicate users.length []) := by
    simp only [generate_visibility_matrix]
    show mark_users angle ints [] users (List.replicate users.length []) = _
    exact mark_users_sats_nil angle ints users _
  simp only [run]
  rw [hgen]
  dsimp only
  simp only [run_scheduler]
  have h0 : (List.replicate users.length ([] : List BeamState))[0]? = some [] := by
    rw [List.getElem?_replicate, if_pos (List.length_pos.mpr hu)]
  rw [h0]
  dsimp only
  simp only [main_loop]
  rw [greedy_empty_rows]

/-- With a single user whose id is `2` (not contiguous 1-based), the
marking loop writes at row `int("2") - 1 = 1` of a one-row matrix as
soon as the pair is visible: Python's IndexError, `none` here. -/
theorem generate_gap_fails (angle : Vector3 α → Vector3 α → Vector3 α → α)
    (p q : Vector3 α) (h : 180 - max_user_visible_angle < angle q origin p) :
    generate_visibility_matrix angle ⟨[(1, p)], [(2, q)], []⟩ = none := by
  have h1 : ¬ (angle q origin p ≤ 180 - max_user_visible_angle) := not_le.mpr h
  have h2 : markColors 1 0 (List.range colors_per_satellite)
      [List.replicate colors_per_satellite BeamState.UNAVAILIBLE] = none := by decide
  simp only [generate_visibility_matrix, mark_users, mark_sats, markPair]
  simp [h1, h2]

/-! ### The scenario parser -/

theorem read_object_some_inv {β : Type} (pf : Tok → Option β) (t : Tok) (line : List Char)
    (d d' : List (Tok × Vector3 β)) (h : read_object pf t line d = some d') :
    ∃ ident xs ys zs, splitWs line = [t, ident, xs, ys, zs] ∧
      (pf xs).isSome = true ∧ (pf ys).isSome = true ∧ (pf zs).isSome = true := by
  unfold read_object at h
  split at h
  · rename_i t0 ident xs ys zs heq
    by_cases hteq : t0 ≠ t
    · rw [if_pos hteq] at h
      cases h
    · rw [if_neg hteq] at h
      have ht0 : t0 = t := not_not.mp hteq
      subst ht0
      split at h
      · rename_i x y z hx hy hz
        exact ⟨ident, xs, ys, zs, heq, by rw [hx]; rfl, by rw [hy]; rfl, by rw [hz]; rfl⟩
      · cases h
  · cases h

theorem read_object_some_wf {β : Type} (pf : Tok → Option β) (t : Tok) (line : List Char)
    (d d' : List (Tok × Vector3 β)) (h : read_object pf t line d = some d')
    (ht : t = kwSat ∨ t = kwUser ∨ t = kwInterferer) :
    wellFormedLine pf line = true := by
  obtain ⟨ident, xs, ys, zs, hsp, hx, hy, hz⟩ := read_object_some_inv pf t line d d' h
  unfold wellFormedLine
  rw [hsp]
  dsimp only
  rw [hx, hy, hz]
  simp only [Bool.and_true]
  rcases ht with ht | ht | ht <;> simp [ht]

theorem read_object_succeeds {β : Type} (pf : Tok → Option β) (t ident xs ys zs : Tok)
    (line : List Char) (d : List (Tok × Vector3 β))
    (hsp : splitWs line = [t, ident, xs, ys, zs])
    (hx : (pf xs).isSome = true) (hy : (pf ys).isSome = true) (hz : (pf zs).isSome = true) :
    ∃ d', read_object pf t line d = some d' := by
  unfold read_object
  rw [hsp]
  obtain ⟨x, hx'⟩ := Option.isSome_iff_exists.mp hx
  obtain ⟨y, hy'⟩ := Option.isSome_iff_exists.mp hy
  obtain ⟨z, hz'⟩ := Option.isSome_iff_exists.mp hz
  dsimp only
  rw [if_neg (by simp), hx', hy', hz']
  exact ⟨_, rfl⟩

theorem read_lines_bad {β : Type} (pf : Tok → Option β) :
    ∀ (lines : List (List Char)) (sc : ScenarioS β),
      (∃ ℓ ∈ lines, isCommentLine ℓ = false ∧ isBlankLine ℓ = false ∧
        wellFormedLine pf ℓ = false) →
      read_lines pf lines sc = none := by
  intro lines
  induction lines with
  | nil =>
    intro sc h
    obtain ⟨ℓ, hm, _⟩ := h
    cases hm
  | cons line rest ih =>
    intro sc hbad
    simp only [read_lines]
    by_cases hcm : line.contains '#' = true
    · rw [if_pos hcm]
      obtain ⟨ℓ, hm, hb⟩ := hbad
      rcases List.mem_cons.mp hm with h0 | h1
      · exfalso
        subst h0
        have hbc := hb.1
        unfold isCommentLine at hbc
        rw [hbc] at hcm
        cases hcm
      · exact ih sc ⟨ℓ, h1, hb⟩
    · rw [if_neg hcm]
      by_cases hbl : line.all Char.isWhitespace = true
      · rw [if_pos hbl]
        obtain ⟨ℓ, hm, hb⟩ := hbad
        rcases List.mem_cons.mp hm with h0 | h1
        · subst h0
          unfold isBlankLine at hb
          rw [hbl] at hb
          exact absurd hb.2.1 (by simp)
        · exact ih sc ⟨ℓ, h1, hb⟩
      · rw [if_neg hbl]
        have hstep : ∀ (t : Tok), (t = kwSat ∨ t = kwUser ∨ t = kwInterferer) →
            ∀ (d : List (Tok × Vector3 β)),
            (∀ d', read_object pf t line d = some d' →
              wellFormedLine pf line = true) := by
          intro t ht d d' hro
          exact read_object_some_wf pf t line d d' hro ht
        obtain ⟨ℓ, hm, hb⟩ := hbad
        rcases List.mem_cons.mp hm with h0 | h1
        · rw [h0] at hb
          -- the bad line itself is reached: whichever branch runs rejects it
          by_cases hi : containsTok line kwInterferer = true
          · rw [if_pos hi]
            cases hro : read_object pf kwInterferer line sc.interferers with
            | none => rfl
            | some d' =>
              exact absurd (hstep kwInterferer (Or.inr (Or.inr rfl)) _ d' hro)
                (by rw [hb.2.2]; simp)
          · rw [if_neg hi]
            by_cases hs : containsTok line kwSat = true
            · rw [if_pos hs]
              cases hro : read_object pf kwSat line sc.sats with
              | none => rfl
              | some d' =>
                exact absurd (hstep kwSat (Or.inl rfl) _ d' hro) (by rw [hb.2.2]; simp)
            · rw [if_neg hs]
              by_cases hu : containsTok line kwUser = true
              · rw [if_pos hu]
                cases hro : read_object pf kwUser line sc.users with
                | none => rfl
                | some d' =>
                  exact absurd (hstep kwUser (Or.inr (Or.inl rfl)) _ d' hro)
                    (by rw [hb.2.2]; simp)
              · rw [if_neg hu]
        · -- the bad line is further down: every branch either aborts now or recurses
          by_cases hi : containsTok line kwInterferer = true
          · rw [if_pos hi]
            cases hro : read_object pf kwInterferer line sc.interferers with
            | none => rfl
            | some d' => exact ih _ ⟨ℓ, h1, hb⟩
          · rw [if_neg hi]
            by_cases hs : containsTok line kwSat = true
            · rw [if_pos hs]
              cases hro : read_object pf kwSat line sc.sats with
              | none => rfl
              | some d' => exact ih _ ⟨ℓ, h1, hb⟩
            · rw [if_neg hs]
              by_cases hu : containsTok line kwUser = true
              · rw [if_pos hu]
                cases hro : read_object pf kwUser line sc.users with
                | none => rfl
                | some d' => exact ih _ ⟨ℓ, h1, hb⟩
              · rw [if_neg hu]

theorem read_lines_good {β : Type} (pf : Tok → Option β) :
    ∀ (lines : List (List Char)) (sc : ScenarioS β),
      (∀ ℓ ∈ lines, goodLine pf ℓ = true) →
      ∃ sc', read_lines pf lines sc = some sc' := by
  intro lines
  induction lines with
  | nil => intro sc _; exact ⟨sc, rfl⟩
  | cons line rest ih =>
    intro sc hgood
    have hline := hgood line (List.mem_cons_self _ _)
    have hrest : ∀ ℓ ∈ rest, goodLine pf ℓ = true :=
      fun ℓ h => hgood ℓ (List.mem_cons_of_mem _ h)
    simp only [read_lines]
    by_cases hcm : line.contains '#' = true
    · rw [if_pos hcm]
      exact ih sc hrest
    · rw [if_neg hcm]
      by_cases hbl : line.all Char.isWhitespace = true
      · rw [if_pos hbl]
        exact ih sc hrest
      · rw [if_neg hbl]
        unfold goodLine isCommentLine isBlankLine at hline
        rw [Bool.not_eq_true] at hcm hbl
        rw [hcm, hbl] at hline
        simp only [Bool.false_or] at hline
        cases hsp : splitWs line with
        | nil => rw [hsp] at hline; cases hline
        | cons t0 rest0 =>
          rw [hsp] at hline
          match rest0, hline with
          | [ident, xs, ys, zs], hline =>
            simp only [Bool.and_eq_true] at hline
            obtain ⟨⟨⟨hroute0, hx⟩, hy⟩, hz⟩ := hline
            have hroute : routeOf line = some t0 := by
              simpa using hroute0
            unfold routeOf at hroute
            by_cases hi : containsTok line kwInterferer = true
            · rw [if_pos hi] at hroute
              have ht0 : t0 = kwInterferer := by
                injection hroute with hh
                exact hh.symm
              subst ht0
              rw [if_pos hi]
              obtain ⟨d', hd'⟩ := read_object_succeeds pf kwInterferer ident xs ys zs line
                sc.interferers hsp hx hy hz
              rw [hd']
              exact ih _ hrest
            · rw [if_neg hi] at hroute
              rw [if_neg hi]
              by_cases hs : containsTok line kwSat = true
              · rw [if_pos hs] at hroute
                have ht0 : t0 = kwSat := by
                  injection hroute with hh
                  exact hh.symm
                subst ht0
                rw [if_pos hs]
                obtain ⟨d', hd'⟩ := read_object_succeeds pf kwSat ident xs ys zs line
                  sc.sats hsp hx hy hz
                rw [hd']
                exact ih _ hrest
              · rw [if_neg hs] at hroute
                rw [if_neg hs]
                by_cases hu : containsTok line kwUser = true
                · rw [if_pos hu] at hroute
                  have ht0 : t0 = kwUser := by
                    injection hroute with hh
                    exact hh.symm
                  subst ht0
                  rw [if_pos hu]
                  obtain ⟨d', hd'⟩ := read_object_succeeds pf kwUser ident xs ys zs line
                    sc.users hsp hx hy hz
                  rw [hd']
                  exact ih _ hrest
                · rw [if_neg hu] at hroute
                  cases hroute

/-! ### The geometry engine over `ℝ` -/

theorem sqrt_sq_sum_eq_zero_iff (x y z : ℝ) :
    Real.sqrt (x ^ 2 + y ^ 2 + z ^ 2) = 0 ↔ (x = 0 ∧ y = 0 ∧ z = 0) := by
  rw [Real.sqrt_eq_zero (by positivity)]
  constructor
  · intro h
    have hx : x ^ 2 = 0 := by nlinarith [sq_nonneg y, sq_nonneg z]
    have hy : y ^ 2 = 0 := by nlinarith [sq_nonneg x, sq_nonneg z]
    have hz : z ^ 2 = 0 := by nlinarith [sq_nonneg x, sq_nonneg y]
    exact ⟨(pow_eq_zero_iff (by norm_num : (2 : ℕ) ≠ 0)).mp hx,
      (pow_eq_zero_iff (by norm_num : (2 : ℕ) ≠ 0)).mp hy,
      (pow_eq_zero_iff (by norm_num : (2 : ℕ) ≠ 0)).mp hz⟩
  · rintro ⟨rfl, rfl, rfl⟩
    ring

/-- C9: `calculate_angle_degrees` fails explicitly (`none`, modelling the
`ZeroDivisionError` Python raises while normalising) exactly when one of
the direction vectors has zero length, i.e. when the vertex coincides
with `point_a` or with `point_b`; on every other input it returns a
degree value (`some`) without failing. -/
theorem c9_angle_fails_iff_degenerate (vertex point_a point_b : Vector3 ℝ) :
    calculate_angle_degrees vertex point_a point_b = none ↔
      (point_a = vertex ∨ point_b = vertex) := by
  obtain ⟨vx, vy, vz⟩ := vertex
  obtain ⟨ax, ay, az⟩ := point_a
  obtain ⟨bx, bby, bz⟩ := point_b
  simp only [calculate_angle_degrees]
  by_cases hc : Real.sqrt ((ax - vx) ^ 2 + (ay - vy) ^ 2 + (az - vz) ^ 2) = 0 ∨
      Real.sqrt ((bx - vx) ^ 2 + (bby - vy) ^ 2 + (bz - vz) ^ 2) = 0
  · rw [if_pos hc]
    simp only [true_iff]
    rcases hc with hc | hc
    · left
      obtain ⟨h1, h2, h3⟩ := (sqrt_sq_sum_eq_zero_iff _ _ _).mp hc
      simp only [Vector3.mk.injEq]
      exact ⟨by linarith, by linarith, by linarith⟩
    · right
      obtain ⟨h1, h2, h3⟩ := (sqrt_sq_sum_eq_zero_iff _ _ _).mp hc
      simp only [Vector3.mk.injEq]
      exact ⟨by linarith, by linarith, by linarith⟩
  · rw [if_neg hc]
    constructor
    · intro h
      exact absurd h (by simp)
    · intro h
      exfalso
      apply hc
      rcases h with h | h
      · left
        simp only [Vector3.mk.injEq] at h
        obtain ⟨h1, h2, h3⟩ := h
        rw [h1, h2, h3]
        simp [sub_self]
      · right
        simp only [Vector3.mk.injEq] at h
        obtain ⟨h1, h2, h3⟩ := h
        rw [h1, h2, h3]
        simp [sub_self]

/-! ### Empty-solution base cases and pipeline inversion -/

theorem sol_pairs_ok_nil (angle : Vector3 α → Vector3 α → Vector3 α → α)
    (scenario : Scenario α) : sol_pairs_ok angle scenario [] := by
  intro s i j ri rj _ hgi _ _
  rw [lookupList_nil] at hgi
  simp at hgi

theorem sol_matrix_ok_nil (angle : Vector3 α → Vector3 α → Vector3 α → α)
    (scenario : Scenario α) (v : Mat) : sol_matrix_ok angle scenario [] v := by
  intro s r hmem
  rw [lookupList_nil] at hmem
  cases hmem

theorem sat_budget_ok_nil (v : Mat) : sat_budget_ok [] v := by
  intro s
  rw [lookupList_nil]
  refine ⟨by simp [beams_per_satellite], ?_⟩
  intro h
  simp [beams_per_satellite] at h

theorem one_beam_per_user_nil : one_beam_per_user [] := by
  intro s i ri s' i' ri' hgi _ _
  rw [lookupList_nil] at hgi
  simp at hgi

theorem run_some_inv (angle : Vector3 α → Vector3 α → Vector3 α → α)
    (scenario : Scenario α) (sol : Solution) (h : run angle scenario = some sol) :
    ∃ v, generate_visibility_matrix angle scenario = some v ∧
      sol = (main_loop angle scenario v).1 := by
  unfold run at h
  cases hg : generate_visibility_matrix angle scenario with
  | none => rw [hg] at h; cases h
  | some v =>
    rw [hg] at h
    dsimp only at h
    unfold run_scheduler at h
    cases h0 : v[0]? with
    | none => rw [h0] at h; cases h
    | some row =>
      rw [h0] at h
      dsimp only at h
      injection h with hh
      exact ⟨v, rfl, hh.symm⟩

theorem main_loop_pairs_ok (angle : Vector3 α → Vector3 α → Vector3 α → α)
    (scenario : Scenario α) (v : Mat) :
    sol_pairs_ok angle scenario (main_loop angle scenario v).1 := by
  unfold main_loop
  exact greedy_inv1 angle scenario (List.range v.length) [] v
    (sol_pairs_ok_nil angle scenario) (sol_matrix_ok_nil angle scenario v)

theorem main_loop_budget_ok (angle : Vector3 α → Vector3 α → Vector3 α → α)
    (scenario : Scenario α) (v : Mat) :
    sat_budget_ok (main_loop angle scenario v).1 (main_loop angle scenario v).2 := by
  unfold main_loop
  exact greedy_budget angle scenario (List.range v.length) [] v (sat_budget_ok_nil v)

theorem main_loop_one_beam (angle : Vector3 α → Vector3 α → Vector3 α → α)
    (scenario : Scenario α) (v : Mat) :
    one_beam_per_user (main_loop angle scenario v).1 := by
  unfold main_loop
  refine greedy_unique angle scenario (List.range v.length) [] v one_beam_per_user_nil
    ?_ (List.nodup_range _)
  intro s a ra hga
  rw [lookupList_nil] at hga
  simp at hga

/-! ### The claims -/

/-- C1: for any two assignment records of the pipeline's final solution
that share a satellite and a color, the angle computed at the
satellite's position between the two assigned users' positions is at
least `self_interference_max`.  The scheduler is parameterised by the
angle function; the claim holds for every symmetric one (the source's
`calculate_angle_degrees` is symmetric, its dot product commutes). -/
theorem c1_self_interference (angle : Vector3 α → Vector3 α → Vector3 α → α)
    (hsymm : ∀ x a b, angle x a b = angle x b a)
    (scenario : Scenario α) (sol : Solution)
    (hrun : run angle scenario = some sol)
    (s i j : Nat) (ri rj : Record) (hij : i ≠ j)
    (hgi : (lookupList sol s)[i]? = some ri)
    (hgj : (lookupList sol s)[j]? = some rj)
    (hcolor : ri.2 = rj.2) :
    ¬ (angle (lookupPos scenario.sats s) (lookupPos scenario.users ri.1)
        (lookupPos scenario.users rj.1) < self_interference_max) := by
  obtain ⟨v, _, hsol⟩ := run_some_inv angle scenario sol hrun
  subst hsol
  have hpairs := main_loop_pairs_ok angle scenario v
  rcases Nat.lt_trichotomy i j with h | h | h
  · exact hpairs s i j ri rj h hgi hgj hcolor
  · exact absurd h hij
  · have hswap := hpairs s j i rj ri h hgj hgi hcolor.symm
    rw [hsymm]
    exact hswap

/-- C1 witness: a concrete two-user, one-satellite run over `ℤ` in which
both users end up on satellite 1 with color 0. -/
theorem c1_self_interference_witness :
    ¬ (wAngle (lookupPos wScenario.sats 1) (lookupPos wScenario.users 1)
        (lookupPos wScenario.users 2) < self_interference_max) :=
  c1_self_interference wAngle (fun _ _ _ => rfl) wScenario [(1, [(1, 0), (2, 0)])]
    (by decide) 1 0 1 (1, 0) (2, 0) (by decide) (by decide) (by decide) (by decide)

/-- C2: no satellite ever holds more than `beams_per_satellite` records;
when a satellite reaches the cap, the final matrix has no `AVAILIBLE`
cell left in any of that satellite's color columns, and the saturating
`update_visibility` call itself (with `beam_i = beams_per_satellite - 1`)
closes every still-`AVAILIBLE` cell of every color of that satellite for
every user, so no further record for it can be appended. -/
theorem c2_capacity (angle : Vector3 α → Vector3 α → Vector3 α → α)
    (scenario : Scenario α) (v : Mat) (s : Nat) :
    (lookupList (main_loop angle scenario v).1 s).length ≤ beams_per_satellite ∧
    ((lookupList (main_loop angle scenario v).1 s).length = beams_per_satellite →
      ∀ u c, c ∈ List.range' ((s - 1) * colors_per_satellite) colors_per_satellite →
        getCell (main_loop angle scenario v).2 u c ≠ BeamState.AVAILIBLE) ∧
    (∀ (w : Mat) (tui ci u c : Nat),
      c ∈ List.range' ((s - 1) * colors_per_satellite) colors_per_satellite →
      getCell (update_visibility angle w scenario tui s ci (beams_per_satellite - 1)) u c ≠
        BeamState.AVAILIBLE) := by
  have hb := main_loop_budget_ok angle scenario v s
  exact ⟨hb.1, hb.2, fun w tui ci u c hc =>
    update_visibility_sat_not_avail angle w scenario tui s ci u c hc⟩

/-- C2 witness: the concrete two-user run respects the cap, and a
saturating propagation closes a concrete cell. -/
theorem c2_capacity_witness :
    (lookupList (main_loop wAngle wScenario
      [[BeamState.AVAILIBLE, BeamState.AVAILIBLE, BeamState.AVAILIBLE, BeamState.AVAILIBLE],
       [BeamState.AVAILIBLE, BeamState.AVAILIBLE, BeamState.AVAILIBLE,
        BeamState.AVAILIBLE]]).1 1).length ≤ beams_per_satellite ∧
    getCell (update_visibility wAngle
      [[BeamState.AVAILIBLE, BeamState.AVAILIBLE, BeamState.AVAILIBLE, BeamState.AVAILIBLE],
       [BeamState.AVAILIBLE, BeamState.AVAILIBLE, BeamState.AVAILIBLE, BeamState.AVAILIBLE]]
      wScenario 0 1 0 (beams_per_satellite - 1)) 1 2 ≠ BeamState.AVAILIBLE :=
  ⟨(c2_capacity wAngle wScenario _ 1).1,
   (c2_capacity wAngle wScenario
      [[BeamState.AVAILIBLE, BeamState.AVAILIBLE, BeamState.AVAILIBLE, BeamState.AVAILIBLE],
       [BeamState.AVAILIBLE, BeamState.AVAILIBLE, BeamState.AVAILIBLE, BeamState.AVAILIBLE]]
      1).2.2 _ 0 0 1 2 (by decide)⟩

/-- C3: on a well-formed scenario (contiguous 1-based ids), matrix
construction succeeds, and for every `(user, satellite)` pair all
`colors_per_satellite` cells of the pair are `AVAILIBLE` iff the
elevation angle is strictly above `180 - max_user_visible_angle` and no
interferer is strictly below `non_starlink_interference_max`
(`pair_visible`); otherwise all those cells are `UNAVAILIBLE`. -/
theorem c3_visibility_matrix (angle : Vector3 α → Vector3 α → Vector3 α → α)
    (upos spos : Nat → Vector3 α) (ints : List (Nat × Vector3 α)) (U S : Nat) :
    ∃ v, generate_visibility_matrix angle ⟨mkObjs spos S, mkObjs upos U, ints⟩ = some v ∧
      ∀ u s, u < U → s < S →
        ((∀ c, c < colors_per_satellite →
            getCell v u (s * colors_per_satellite + c) = BeamState.AVAILIBLE) ↔
          pair_visible angle ints (upos u) (spos s)) ∧
        (¬ pair_visible angle ints (upos u) (spos s) →
          ∀ c, c < colors_per_satellite →
            getCell v u (s * colors_per_satellite + c) = BeamState.UNAVAILIBLE) := by
  obtain ⟨v, hgen, _, _, hget⟩ := generate_mkObjs angle upos spos ints U S
  refine ⟨v, hgen, ?_⟩
  intro u s hu hs
  have hcS : ∀ c, c < colors_per_satellite →
      s * colors_per_satellite + c < S * colors_per_satellite := by
    intro c hc
    have hle : (s + 1) * colors_per_satellite ≤ S * colors_per_satellite :=
      Nat.mul_le_mul_right _ hs
    rw [Nat.succ_mul] at hle
    omega
  have hdiv : ∀ c, c < colors_per_satellite →
      (s * colors_per_satellite + c) / colors_per_satellite = s := by
    intro c hc
    simp only [colors_per_satellite] at *
    omega
  constructor
  · constructor
    · intro hall
      have h0 := hall 0 (by simp [colors_per_satellite])
      rw [hget] at h0
      by_cases hcond : u < U ∧ s * colors_per_satellite + 0 < S * colors_per_satellite ∧
          pair_visible angle ints (upos u)
            (spos ((s * colors_per_satellite + 0) / colors_per_satellite))
      · have := hcond.2.2
        rwa [hdiv 0 (by simp [colors_per_satellite])] at this
      · rw [if_neg hcond] at h0
        cases h0
    · intro hvis c hc
      rw [hget]
      rw [if_pos ⟨hu, hcS c hc, by rw [hdiv c hc]; exact hvis⟩]
  · intro hvis c hc
    rw [hget]
    rw [if_neg]
    rintro ⟨_, _, hv⟩
    rw [hdiv c hc] at hv
    exact hvis hv

/-- C3 witness: a concrete one-user, one-satellite scenario over `ℤ`
where the pair is visible and all four cells come out `AVAILIBLE`. -/
theorem c3_visibility_matrix_witness :
    ∃ v, generate_visibility_matrix wAngle
        ⟨mkObjs (fun _ => wP) 1, mkObjs (fun _ => wP) 1, []⟩ = some v ∧
      ((∀ c, c < colors_per_satellite →
          getCell v 0 (0 * colors_per_satellite + c) = BeamState.AVAILIBLE) ↔
        pair_visible wAngle [] wP wP) := by
  obtain ⟨v, hv, hc⟩ := c3_visibility_matrix wAngle (fun _ => wP) (fun _ => wP) [] 1 1
  exact ⟨v, hv, (hc 0 0 (by decide) (by decide)).1⟩

/-- C4: the scheduler is first-fit in flat column order (satellite
ascending, color within satellite ascending, as `sat_beam_i` decodes to
`(sat_beam_i / colors_per_satellite + 1, sat_beam_i % colors_per_satellite)`):
a user with no `AVAILIBLE` cell is skipped without error; otherwise the
least `AVAILIBLE` column is taken, the record `[user_i + 1, color]` is
appended at the end of that satellite's list (so its 1-based position is
the new list length), `update_visibility` runs, and the scan stops; over
the whole loop every user receives at most one beam. -/
theorem c4_first_fit (angle : Vector3 α → Vector3 α → Vector3 α → α)
    (scenario : Scenario α) :
    (∀ (sol : Solution) (v : Mat) (user_i : Nat),
        find_avail (v.getD user_i []) = none →
        assign_user angle scenario sol v user_i = (sol, v)) ∧
    (∀ (sol : Solution) (v : Mat) (user_i i : Nat),
        find_avail (v.getD user_i []) = some i →
        getCell v user_i i = BeamState.AVAILIBLE ∧
        (∀ k, k < i → getCell v user_i k ≠ BeamState.AVAILIBLE) ∧
        assign_user angle scenario sol v user_i =
          (dictAppend sol (i / colors_per_satellite + 1)
              (user_i + 1, i % colors_per_satellite),
            update_visibility angle v scenario user_i (i / colors_per_satellite + 1)
              (i % colors_per_satellite)
              ((lookupList sol (i / colors_per_satellite + 1)).length)) ∧
        lookupList (assign_user angle scenario sol v user_i).1
            (i / colors_per_satellite + 1) =
          lookupList sol (i / colors_per_satellite + 1) ++
            [(user_i + 1, i % colors_per_satellite)]) ∧
    (∀ v : Mat, one_beam_per_user (main_loop angle scenario v).1) := by
  refine ⟨fun sol v user_i h => assign_user_none angle scenario sol v user_i h,
    ?_, fun v => main_loop_one_beam angle scenario v⟩
  intro sol v user_i i h
  obtain ⟨h1, h2⟩ := find_avail_some _ i h
  refine ⟨h1, h2, assign_user_some angle scenario sol v user_i i h, ?_⟩
  rw [assign_user_some angle scenario sol v user_i i h]
  exact lookupList_dictAppend_self sol _ _

/-- C4 witness: a user with an empty row gets nothing; the two-user run
gives each user at most one beam. -/
theorem c4_first_fit_witness :
    assign_user wAngle wScenario [] [[], []] 0 = ([], [[], []]) ∧
    one_beam_per_user (main_loop wAngle wScenario
      [[BeamState.AVAILIBLE, BeamState.AVAILIBLE, BeamState.AVAILIBLE, BeamState.AVAILIBLE],
       [BeamState.AVAILIBLE, BeamState.AVAILIBLE, BeamState.AVAILIBLE,
        BeamState.AVAILIBLE]]).1 :=
  ⟨(c4_first_fit wAngle wScenario).1 [] [[], []] 0 (by decide),
   (c4_first_fit wAngle wScenario).2.2 _⟩

/-- C5 (code bug): a scenario with zero users makes the scheduler read
`len(v[0])` on an empty matrix — an IndexError (`none` here), not an
empty assignment; the zero-satellite half of the claim does hold (empty
assignment, no error). -/
theorem c5_zero_boundary (angle : Vector3 α → Vector3 α → Vector3 α → α)
    (objs ints : List (Nat × Vector3 α)) :
    run angle ⟨objs, [], ints⟩ = none ∧
      (objs ≠ [] → run angle ⟨[], objs, ints⟩ = some []) :=
  ⟨run_no_users angle objs ints, fun h => run_no_sats angle objs ints h⟩

/-- C5 witness: concrete zero-user and zero-satellite scenarios. -/
theorem c5_zero_boundary_witness :
    run wAngle ⟨[(1, wP)], [], []⟩ = none ∧ run wAngle ⟨[], [(1, wP)], []⟩ = some [] :=
  ⟨(c5_zero_boundary wAngle [(1, wP)] []).1,
   (c5_zero_boundary wAngle [(1, wP)] []).2 (by decide)⟩

/-- C6 counterexample: during matrix construction the cell
`(user 1, satellite 1, color A)` starts `UNAVAILIBLE` (the initial fill)
and is then overwritten with `AVAILIBLE` — a transition
`Unavailable → Available`, so it is not true that, across matrix
construction and scheduling, cells only ever move out of `Available`. -/
theorem c6_counterexample :
    getCell (List.replicate wScenario.users.length
      (List.replicate (wScenario.sats.length * colors_per_satellite)
        BeamState.UNAVAILIBLE)) 0 0 = BeamState.UNAVAILIBLE ∧
    generate_visibility_matrix wAngle wScenario =
      some [[BeamState.AVAILIBLE, BeamState.AVAILIBLE, BeamState.AVAILIBLE,
          BeamState.AVAILIBLE],
        [BeamState.AVAILIBLE, BeamState.AVAILIBLE, BeamState.AVAILIBLE,
          BeamState.AVAILIBLE]] ∧
    getCell [[BeamState.AVAILIBLE, BeamState.AVAILIBLE, BeamState.AVAILIBLE,
          BeamState.AVAILIBLE],
        [BeamState.AVAILIBLE, BeamState.AVAILIBLE, BeamState.AVAILIBLE,
          BeamState.AVAILIBLE]] 0 0 = BeamState.AVAILIBLE := by
  refine ⟨by decide, ?_, by decide⟩
  decide

/-- C6 (amended): matrix construction only produces `AVAILIBLE` or
`UNAVAILIBLE` cells (its writes move cells from the `UNAVAILIBLE`
initial fill to `AVAILIBLE` only); from then on, each scheduler step is
one-way — any cell a step changes was `AVAILIBLE` before the step and is
no longer `AVAILIBLE` after it, so across the scheduling run no cell
returns to `Available` after leaving it and `InUse`/`Unavailable` are
terminal. -/
theorem c6_monotonic_cells (angle : Vector3 α → Vector3 α → Vector3 α → α)
    (scenario : Scenario α) :
    (∀ v, generate_visibility_matrix angle scenario = some v →
      ∀ u c, getCell v u c = BeamState.AVAILIBLE ∨
        getCell v u c = BeamState.UNAVAILIBLE) ∧
    (∀ (sol : Solution) (v : Mat) (user_i : Nat),
      cell_mono v (assign_user angle scenario sol v user_i).2) :=
  ⟨fun v hv => generate_no_in_use angle scenario v hv,
   fun sol v user_i => cell_mono_assign_user angle scenario sol v user_i⟩

/-- C6 witness: the construction clause at the concrete scenario and a
concrete scheduler step. -/
theorem c6_monotonic_cells_witness :
    (∀ u c, getCell [[BeamState.AVAILIBLE, BeamState.AVAILIBLE, BeamState.AVAILIBLE,
          BeamState.AVAILIBLE],
        [BeamState.AVAILIBLE, BeamState.AVAILIBLE, BeamState.AVAILIBLE,
          BeamState.AVAILIBLE]] u c = BeamState.AVAILIBLE ∨
      getCell [[BeamState.AVAILIBLE, BeamState.AVAILIBLE, BeamState.AVAILIBLE,
          BeamState.AVAILIBLE],
        [BeamState.AVAILIBLE, BeamState.AVAILIBLE, BeamState.AVAILIBLE,
          BeamState.AVAILIBLE]] u c = BeamState.UNAVAILIBLE) ∧
    cell_mono [[BeamState.AVAILIBLE]] (assign_user wAngle wScenario [] [[BeamState.AVAILIBLE]] 0).2 :=
  ⟨(c6_monotonic_cells wAngle wScenario).1 _ (by decide),
   (c6_monotonic_cells wAngle wScenario).2 [] [[BeamState.AVAILIBLE]] 0⟩

/-- C7: the pipeline is a pure function of the scenario: two runs on
identical input produce identical assignment output (all traversals are
over insertion-ordered structures, so the model has no other input). -/
theorem c7_deterministic (angle : Vector3 α → Vector3 α → Vector3 α → α)
    (sc1 sc2 : Scenario α) (h : sc1 = sc2) :
    run angle sc1 = run angle sc2 := by
  rw [h]

/-- C7 witness: the concrete run compared with itself. -/
theorem c7_deterministic_witness : run wAngle wScenario = run wAngle wScenario :=
  c7_deterministic wAngle wScenario wScenario rfl

/-- C8 counterexample: the line `user sat1 1 2 3` is well-formed in the
claim's sense (five tokens, recognised keyword `user`, three parseable
coordinates), yet the load fails, because the `elif "sat" in line` test
fires on the id token `sat1` and routes the line to `read_object("sat")`,
which rejects it. -/
theorem c8_counterexample :
    (isCommentLine ("user sat1 1 2 3".toList) = false ∧
      isBlankLine ("user sat1 1 2 3".toList) = false ∧
      wellFormedLine wParse ("user sat1 1 2 3".toList) = true) ∧
    read_scenario wParse ["user sat1 1 2 3".toList] = none := by
  refine ⟨⟨by decide, by decide, by decide⟩, by decide⟩

/-- C8 (amended): loading is all-or-nothing — any non-comment, non-blank
malformed line makes the whole load fail; conversely the load succeeds
provided every non-comment, non-blank line is well-formed **and** the
containment-based `elif` routing (testing `interferer`, then `sat`, then
`user` as substrings of the whole line) dispatches it to its own leading
keyword — which the numeric ids of the documented format guarantee. -/
theorem c8_load_all_or_nothing {β : Type} (pf : Tok → Option β)
    (lines : List (List Char)) :
    ((∃ ℓ ∈ lines, isCommentLine ℓ = false ∧ isBlankLine ℓ = false ∧
        wellFormedLine pf ℓ = false) → read_scenario pf lines = none) ∧
    ((∀ ℓ ∈ lines, goodLine pf ℓ = true) →
      ∃ sc, read_scenario pf lines = some sc) :=
  ⟨fun h => read_lines_bad pf lines _ h, fun h => read_lines_good pf lines _ h⟩

/-- C8 witness: a four-token line aborts a load; a well-formed file with
a comment loads. -/
theorem c8_load_all_or_nothing_witness :
    read_scenario wParse ["sat 1 2 3".toList] = none ∧
    ∃ sc, read_scenario wParse
      ["sat 1 0 0 42164".toList, "# note".toList, "user 1 0 0 6371".toList] = some sc :=
  ⟨(c8_load_all_or_nothing wParse ["sat 1 2 3".toList]).1
      ⟨"sat 1 2 3".toList, by decide, by decide⟩,
   (c8_load_all_or_nothing wParse _).2 (by decide)⟩

/-- C10: ids must be contiguous and 1-based: the scenario file with a
single satellite `1` and a single user with id `2` loads successfully,
converts to the core model, and then matrix construction indexes row
`int("2") - 1 = 1` of a one-row matrix as soon as the user sees the
satellite (for the real geometry the pair is colinear with the origin,
angle `180° > 135°`), so the run dies with an out-of-range write instead
of producing an assignment. -/
theorem c10_requires_contiguous_ids (angle : Vector3 ℤ → Vector3 ℤ → Vector3 ℤ → ℤ)
    (h : 180 - max_user_visible_angle <
      angle ⟨0, 0, 6371⟩ origin ⟨0, 0, 42164⟩) :
    ∃ sS : ScenarioS ℤ,
      read_scenario wParse
        ["sat 1 0 0 42164".toList, "user 2 0 0 6371".toList] = some sS ∧
      toCore sS = some ⟨[(1, ⟨0, 0, 42164⟩)], [(2, ⟨0, 0, 6371⟩)], []⟩ ∧
      generate_visibility_matrix angle
        ⟨[(1, ⟨0, 0, 42164⟩)], [(2, ⟨0, 0, 6371⟩)], []⟩ = none ∧
      run angle ⟨[(1, ⟨0, 0, 42164⟩)], [(2, ⟨0, 0, 6371⟩)], []⟩ = none := by
  refine ⟨⟨[("1".toList, ⟨0, 0, 42164⟩)], [("2".toList, ⟨0, 0, 6371⟩)], []⟩,
    by decide, by decide, generate_gap_fails angle _ _ h, ?_⟩
  unfold run
  rw [generate_gap_fails angle _ _ h]

/-- C10 witness: the concrete angle function satisfies the visibility
hypothesis. -/
theorem c10_requires_contiguous_ids_witness :
    ∃ sS : ScenarioS ℤ,
      read_scenario wParse
        ["sat 1 0 0 42164".toList, "user 2 0 0 6371".toList] = some sS ∧
      toCore sS = some ⟨[(1, ⟨0, 0, 42164⟩)], [(2, ⟨0, 0, 6371⟩)], []⟩ ∧
      generate_visibility_matrix wAngle
        ⟨[(1, ⟨0, 0, 42164⟩)], [(2, ⟨0, 0, 6371⟩)], []⟩ = none ∧
      run wAngle ⟨[(1, ⟨0, 0, 42164⟩)], [(2, ⟨0, 0, 6371⟩)], []⟩ = none :=
  c10_requires_contiguous_ids wAngle (by decide)

end BeamPlanning
